import Mathlib

/-!
Verification of the 3D scene / camera / renderer subsystem of the EVA
holographic interface (src/eva/graphics/scene.py, camera.py, renderer.py,
and the Vector3D record of src/eva/core/models.py).

Embedding conventions.

Python dicts are modelled as insertion-ordered association lists
(`List (key × value)`): assignment `d[k] = v` replaces the value in
place when the key is present and appends otherwise (`insertKey`),
`del d[k]` removes the entry (`eraseKey`), and iteration follows list
order, exactly as Python dicts iterate in insertion order.

Python object identity: scene objects are mutable Python instances
shared between the flat index `Scene3D.objects`, each node object map
and the caller.  The embedding gives every instance a heap address: the
scene owns `heap : List (Nat × SceneObject)` and the indices store
addresses.  `add_object` allocates a fresh address (`next_ref`), the
in-place mutation of `update_object_transform` rewrites the heap cell,
and the `scene_obj is obj` identity test of `remove_node` becomes
address equality.

Numbers: scene geometry (positions, grid arithmetic, the ray scalar
products) uses exact rationals; every Python float is a rational, so
quantifying over ℚ covers all float inputs, with float rounding
idealised away as the spec does.  The camera maths (square roots and
trigonometry of zoom / orbit / look-at) lives over ℝ.  A numpy division
by a zero norm produces non-finite entries (NaN); values that the code
only ever produces that way are modelled as `none`.

Fields of the Python records that no modelled behaviour reads or that
cannot carry mathematical meaning (OpenGL handles `vao`/`index_buffer`,
the `Any`-typed `material_params`/`tags`/`user_data` dictionaries, the
logger) are not part of the embedding.
-/

/-- Python `d.get(k)`: first (= unique) entry with this key. -/
def lookupKey {α β : Type} [DecidableEq α] : List (α × β) → α → Option β
  | [], _ => none
  | p :: ps, k => if p.1 = k then some p.2 else lookupKey ps k

/-- Python `d[k] = v`: replace in place when the key is present, append otherwise. -/
def insertKey {α β : Type} [DecidableEq α] : List (α × β) → α → β → List (α × β)
  | [], k, v => [(k, v)]
  | p :: ps, k, v => if p.1 = k then (k, v) :: ps else p :: insertKey ps k v

/-- Python `del d[k]`: drop the entry with this key. -/
def eraseKey {α β : Type} [DecidableEq α] : List (α × β) → α → List (α × β)
  | [], _ => []
  | p :: ps, k => if p.1 = k then ps else p :: eraseKey ps k

/-- Vector3D of src/eva/core/models.py, specialised to the scene side of the
embedding: exact rational coordinates. -/
structure Vector3D where
  x : ℚ
  y : ℚ
  z : ℚ
deriving DecidableEq, Repr

/-- SceneObject of src/eva/graphics/scene.py (the dataclass fields the
modelled operations read; GPU handles and `Any`-typed dictionaries omitted,
see the header). -/
structure SceneObject where
  vertex_count : ℕ := 0
  position : Vector3D := ⟨0, 0, 0⟩
  rotation : Vector3D := ⟨0, 0, 0⟩
  scale : Vector3D := ⟨1, 1, 1⟩
  visible : Bool := true
  selectable : Bool := true
  interactive : Bool := true
  object_type : String := "generic"
deriving DecidableEq, Repr

instance : Inhabited SceneObject := ⟨{}⟩

/-- SceneNode of src/eva/graphics/scene.py.  The Python class carries a
`parent` back-pointer and a list of child node objects; `create_node` only
ever attaches a fresh leaf under an existing node and `remove_node` detaches
a whole subtree, so the nodes reachable from the root always form a tree,
modelled as a nested inductive.  Node object maps store heap addresses
(Python references). -/
inductive SceneNode : Type where
  | mk (name : String) (position rotation scale : Vector3D) (visible : Bool)
      (objects : List (String × ℕ)) (children : List SceneNode)
deriving Repr

def SceneNode.name : SceneNode → String
  | .mk n _ _ _ _ _ _ => n

def SceneNode.objects : SceneNode → List (String × ℕ)
  | .mk _ _ _ _ _ o _ => o

def SceneNode.children : SceneNode → List SceneNode
  | .mk _ _ _ _ _ _ c => c

/-- A fresh node as `SceneNode.__init__` builds it (identity transform,
visible, no objects, no children). -/
def SceneNode.fresh (name : String) : SceneNode :=
  .mk name ⟨0, 0, 0⟩ ⟨0, 0, 0⟩ ⟨1, 1, 1⟩ true [] []

/-- Replace the object map of a node (used for `node.add_object` /
`node.remove_object`, which only touch the map). -/
def SceneNode.withObjects (f : List (String × ℕ) → List (String × ℕ)) :
    SceneNode → SceneNode
  | .mk n p r s v o c => .mk n p r s v (f o) c

/-- Append a child, as `parent.add_child(self)` does for a fresh node
(a fresh node is never already among the children). -/
def SceneNode.withChild (child : SceneNode) : SceneNode → SceneNode
  | .mk n p r s v o c => .mk n p r s v o (c ++ [child])

mutual
/-- Look a node up by name, first match in preorder.  `create_node` keeps
names unique, so this is the single node the Python `self.nodes` dict maps
the name to. -/
def findNode (nm : String) : SceneNode → Option SceneNode
  | .mk n p r s v o c =>
      if n = nm then some (.mk n p r s v o c) else findNodeList nm c
def findNodeList (nm : String) : List SceneNode → Option SceneNode
  | [] => none
  | t :: ts =>
      match findNode nm t with
      | some u => some u
      | none => findNodeList nm ts
end

mutual
/-- Apply `f` to the node named `nm` (every match; names are unique through
the API, so this is the one dict entry the Python code mutates in place). -/
def mapNode (nm : String) (f : SceneNode → SceneNode) : SceneNode → SceneNode
  | .mk n p r s v o c =>
      if n = nm then f (.mk n p r s v o c)
      else .mk n p r s v o (mapNodeList nm f c)
def mapNodeList (nm : String) (f : SceneNode → SceneNode) :
    List SceneNode → List SceneNode
  | [] => []
  | t :: ts => mapNode nm f t :: mapNodeList nm f ts
end

mutual
/-- All `(id, address)` pairs of a subtree, own objects first, then the
children in order: the order `get_all_objects(include_children=True)`
returns the object references in. -/
def nodeEntries : SceneNode → List (String × ℕ)
  | .mk _ _ _ _ _ o c => o ++ nodeEntriesList c
def nodeEntriesList : List SceneNode → List (String × ℕ)
  | [] => []
  | t :: ts => nodeEntries t ++ nodeEntriesList ts
end

/-- `node.get_all_objects(include_children=True)`: the object references
(heap addresses) of a whole subtree, in traversal order. -/
def getAllObjects (t : SceneNode) : List ℕ :=
  (nodeEntries t).map Prod.snd

mutual
/-- Names of a subtree in the order `_remove_node_recursive` deletes them
from the `nodes` dict: children first, the node itself last. -/
def subtreeNamesPost : SceneNode → List String
  | .mk n _ _ _ _ _ c => subtreeNamesPostList c ++ [n]
def subtreeNamesPostList : List SceneNode → List String
  | [] => []
  | t :: ts => subtreeNamesPost t ++ subtreeNamesPostList ts
end

mutual
/-- How often an object id occurs across the object maps of a subtree. -/
def nodeOccur (id_ : String) : SceneNode → ℕ
  | .mk _ _ _ _ _ o c => (o.map Prod.fst).count id_ + nodeOccurList id_ c
def nodeOccurList (id_ : String) : List SceneNode → ℕ
  | [] => 0
  | t :: ts => nodeOccur id_ t + nodeOccurList id_ ts
end

mutual
/-- Drop every child subtree rooted at a node named `nm`
(`node.parent.remove_child(node)`; names are unique through the API, so
exactly the removed node detaches). -/
def removeChildByName (nm : String) : SceneNode → SceneNode
  | .mk n p r s v o c => .mk n p r s v o (removeChildByNameList nm c)
def removeChildByNameList (nm : String) : List SceneNode → List SceneNode
  | [] => []
  | t :: ts =>
      if t.name = nm then removeChildByNameList nm ts
      else removeChildByName nm t :: removeChildByNameList nm ts
end

/-- Scene3D of src/eva/graphics/scene.py.  `root_node` is the node tree,
`node_names` the insertion order of the `self.nodes` dict keys (the dict
maps each listed name to the unique tree node of that name), `objects`
the flat id index, `heap`/`next_ref` the modelled Python store, and
`spatial_grid` the spatial hash grid. -/
structure Scene3D where
  root_node : SceneNode
  node_names : List String
  objects : List (String × ℕ)
  heap : List (ℕ × SceneObject)
  next_ref : ℕ
  spatial_grid : List ((ℤ × ℤ × ℤ) × List String)
  grid_size : ℚ

/-- Scene3D.__init__: a fresh root node, empty indices, grid size 10. -/
def Scene3D.init : Scene3D :=
  { root_node := SceneNode.fresh "root"
    node_names := ["root"]
    objects := []
    heap := []
    next_ref := 0
    spatial_grid := []
    grid_size := 10 }

/-- `self.nodes.get(nm)`.  The dict holds exactly the names in
`node_names`; its value is the unique tree node of that name. -/
def Scene3D.getNode (s : Scene3D) (nm : String) : Option SceneNode :=
  if nm ∈ s.node_names then findNode nm s.root_node else none

/-- Dereference a stored object address.  Through the API every stored
address is live, so the `getD default` never fires. -/
def Scene3D.heapObj (s : Scene3D) (r : ℕ) : SceneObject :=
  (lookupKey s.heap r).getD default

/-- The grid cell of a position: `int(coordinate // grid_size)` per axis,
which is the floor of the exact quotient. -/
def gridKeyOf (gs : ℚ) (p : Vector3D) : ℤ × ℤ × ℤ :=
  (⌊p.x / gs⌋, ⌊p.y / gs⌋, ⌊p.z / gs⌋)

/-- Scene3D._update_spatial_index: ensure the cell exists, then append the
id to the cell unless it is already listed. -/
def Scene3D.update_spatial_index (s : Scene3D) (object_id : String)
    (obj : SceneObject) : Scene3D :=
  let key := gridKeyOf s.grid_size obj.position
  let g1 := if (lookupKey s.spatial_grid key).isSome then s.spatial_grid
            else s.spatial_grid ++ [(key, [])]
  let bucket := (lookupKey g1 key).getD []
  if object_id ∈ bucket then { s with spatial_grid := g1 }
  else { s with spatial_grid := insertKey g1 key (bucket ++ [object_id]) }

/-- Scene3D._remove_from_spatial_index: drop the id from the cell of the
given object position (first occurrence, as `list.remove`), deleting the
cell when it empties. -/
def Scene3D.remove_from_spatial_index (s : Scene3D) (object_id : String)
    (obj : SceneObject) : Scene3D :=
  let key := gridKeyOf s.grid_size obj.position
  match lookupKey s.spatial_grid key with
  | none => s
  | some bucket =>
      let bucket1 := if object_id ∈ bucket then bucket.erase object_id else bucket
      if bucket1 = [] then { s with spatial_grid := eraseKey s.spatial_grid key }
      else { s with spatial_grid := insertKey s.spatial_grid key bucket1 }

/-- Scene3D.add_object.  An existing id is replaced silently (warning log
only); a missing target node fails.  The passed object is a fresh Python
instance, so it gets a fresh heap address. -/
def Scene3D.add_object (s : Scene3D) (object_id : String) (obj : SceneObject)
    (node_name : String) : Bool × Scene3D :=
  match s.getNode node_name with
  | none => (false, s)
  | some _ =>
      let r := s.next_ref
      let s1 : Scene3D :=
        { s with
          root_node :=
            mapNode node_name (SceneNode.withObjects (insertKey · object_id r))
              s.root_node
          objects := insertKey s.objects object_id r
          heap := s.heap ++ [(r, obj)]
          next_ref := r + 1 }
      (true, s1.update_spatial_index object_id obj)

/-- The `for node in self.nodes.values(): if node.remove_object(id): break`
loop of Scene3D.remove_object: walk the dict in insertion order and erase
the id from the first node whose map holds it. -/
def removeObjFirstNode (names : List String) (id_ : String) (s : Scene3D) :
    SceneNode :=
  match names with
  | [] => s.root_node
  | n :: ns =>
      match s.getNode n with
      | some nd =>
          if (lookupKey nd.objects id_).isSome then
            mapNode n (SceneNode.withObjects (eraseKey · id_)) s.root_node
          else removeObjFirstNode ns id_ s
      | none => removeObjFirstNode ns id_ s

/-- Scene3D.remove_object: spatial index first, then the owning node, then
the flat index.  (The `vao.release()` GPU cleanup has no model state.) -/
def Scene3D.remove_object (s : Scene3D) (object_id : String) :
    Bool × Scene3D :=
  match lookupKey s.objects object_id with
  | none => (false, s)
  | some r =>
      let obj := s.heapObj r
      let s1 := s.remove_from_spatial_index object_id obj
      let s2 := { s1 with root_node := removeObjFirstNode s1.node_names object_id s1 }
      (true, { s2 with objects := eraseKey s2.objects object_id })

/-- Scene3D.update_object_transform: spatial removal at the old position,
in-place mutation of the shared instance (a heap cell rewrite), spatial
reinsertion at the new position.  A pydantic `Vector3D` instance is always
truthy, so `if position:` is exactly the `Option` match. -/
def Scene3D.update_object_transform (s : Scene3D) (object_id : String)
    (position rotation scale : Option Vector3D) : Bool × Scene3D :=
  match lookupKey s.objects object_id with
  | none => (false, s)
  | some r =>
      let obj := s.heapObj r
      let s1 := s.remove_from_spatial_index object_id obj
      let obj1 := match position with
        | some p => { obj with position := p }
        | none => obj
      let obj2 := match rotation with
        | some q => { obj1 with rotation := q }
        | none => obj1
      let obj3 := match scale with
        | some q => { obj2 with scale := q }
        | none => obj2
      let s2 := { s1 with heap := insertKey s1.heap r obj3 }
      (true, s2.update_spatial_index object_id obj3)

/-- `self.objects.items()` with each reference dereferenced. -/
def Scene3D.objectItems (s : Scene3D) : List (String × SceneObject) :=
  s.objects.map (fun p => (p.1, s.heapObj p.2))

/-- Scene3D.find_objects_near: brute-force squared-distance scan over the
flat index, no visibility or selectability filter. -/
def Scene3D.find_objects_near (s : Scene3D) (position : Vector3D)
    (radius : ℚ) : List String :=
  let radius_squared := radius * radius
  (s.objectItems.filter (fun p =>
      let dx := p.2.position.x - position.x
      let dy := p.2.position.y - position.y
      let dz := p.2.position.z - position.z
      decide (dx * dx + dy * dy + dz * dz ≤ radius_squared))).map Prod.fst

/-- Scene3D.get_objects with its default arguments (no type filter, no node
filter, `visible_only=True`), as render_frame calls it. -/
def Scene3D.get_objects (s : Scene3D) : List SceneObject :=
  (s.objectItems.map Prod.snd).filter (fun o => o.visible)

/-- The dictionary Scene3D.get_stats returns. -/
structure SceneStats where
  total_objects : ℕ
  total_nodes : ℕ
  visible_objects : ℕ
  interactive_objects : ℕ
  spatial_grid_cells : ℕ
deriving DecidableEq, Repr

def Scene3D.get_stats (s : Scene3D) : SceneStats :=
  { total_objects := s.objects.length
    total_nodes := s.node_names.length
    visible_objects := (s.objectItems.filter (fun p => p.2.visible)).length
    interactive_objects := (s.objectItems.filter (fun p => p.2.interactive)).length
    spatial_grid_cells := s.spatial_grid.length }

/-- Scene3D.create_node.  An existing name returns the existing node
(warning log only, the scene unchanged); a missing parent returns `none`;
otherwise a fresh leaf is attached under the parent and listed in the
dict. -/
def Scene3D.create_node (s : Scene3D) (name parent_name : String) :
    Option SceneNode × Scene3D :=
  if name ∈ s.node_names then (s.getNode name, s)
  else
    match s.getNode parent_name with
    | none => (none, s)
    | some _ =>
        let node := SceneNode.fresh name
        (some node,
          { s with
            root_node := mapNode parent_name (SceneNode.withChild node) s.root_node
            node_names := s.node_names ++ [name] })

/-- Scene3D.remove_node: refuse "root"; otherwise collect every object
reference of the subtree, delete (by identity, modelled as address
equality) the first flat entry holding each reference, detach the subtree
from its parent and delete the subtree names from the dict.  The spatial
grid is not touched. -/
def eraseFirstRef : List (String × ℕ) → ℕ → List (String × ℕ)
  | [], _ => []
  | p :: ps, r => if p.2 = r then ps else p :: eraseFirstRef ps r

def Scene3D.remove_node (s : Scene3D) (name : String) : Bool × Scene3D :=
  if name = "root" then (false, s)
  else
    match s.getNode name with
    | none => (false, s)
    | some node =>
        let objects1 := (getAllObjects node).foldl eraseFirstRef s.objects
        let root1 := removeChildByName name s.root_node
        let names1 := (subtreeNamesPost node).foldl List.erase s.node_names
        (true, { s with objects := objects1, root_node := root1, node_names := names1 })

/-- The acceptance scalars of Scene3D.raycast for one object: the projection
of (center - origin) onto the ray direction. -/
def rayProj (ray_origin ray_direction : Vector3D) (o : SceneObject) : ℚ :=
  (o.position.x - ray_origin.x) * ray_direction.x +
  (o.position.y - ray_origin.y) * ray_direction.y +
  (o.position.z - ray_origin.z) * ray_direction.z

/-- Squared distance from the object center to the closest point of the ray
(the code takes `** 0.5` of this and compares with the sphere radius). -/
def rayPerpSq (ray_origin ray_direction : Vector3D) (o : SceneObject) : ℚ :=
  let pl := rayProj ray_origin ray_direction o
  let cx := ray_origin.x + ray_direction.x * pl
  let cy := ray_origin.y + ray_direction.y * pl
  let cz := ray_origin.z + ray_direction.z * pl
  (o.position.x - cx) * (o.position.x - cx) +
  (o.position.y - cy) * (o.position.y - cy) +
  (o.position.z - cz) * (o.position.z - cz)

open Classical

/-- One iteration of the Scene3D.raycast loop.  The accumulator is
`(closest_object, closest_distance)`; `sphere_radius` is the fixed 1.0 of
the code, and `distance_to_ray` is the real square root the code computes
with `** 0.5`. -/
noncomputable def raycastStep (ray_origin ray_direction : Vector3D)
    (acc : Option String × ℚ) (p : String × SceneObject) : Option String × ℚ :=
  if p.2.selectable = false then acc
  else
    let projection_length := rayProj ray_origin ray_direction p.2
    if projection_length < 0 then acc
    else
      let distance_to_ray : ℝ :=
        Real.sqrt ((rayPerpSq ray_origin ray_direction p.2 : ℚ) : ℝ)
      if distance_to_ray ≤ (1 : ℝ) ∧ projection_length < acc.2 then
        (some p.1, projection_length)
      else acc

/-- Scene3D.raycast: fold the loop over `self.objects.items()` starting from
`(None, max_distance)` and return the closest object id. -/
noncomputable def Scene3D.raycast (s : Scene3D)
    (ray_origin ray_direction : Vector3D) (max_distance : ℚ) : Option String :=
  (s.objectItems.foldl (raycastStep ray_origin ray_direction)
    (none, max_distance)).1

/-- Vector over ℝ for the camera mathematics (square roots and
trigonometry; see the header). -/
structure Vec3R where
  x : ℝ
  y : ℝ
  z : ℝ

/-- The 4x4 matrices the camera produces. -/
abbrev Mat4 : Type := Matrix (Fin 4) (Fin 4) ℝ

/-- math.atan2(y, x): the argument of the point (x, y). -/
noncomputable def atan2 (y x : ℝ) : ℝ := Complex.arg ⟨x, y⟩

/-- Camera3D of src/eva/graphics/camera.py.  The view matrix cache is
`none` while the Python cache is `None`; a cached matrix that numpy filled
with non-finite entries (division by a zero norm) is `some none`. -/
structure Camera3D where
  position : Vec3R
  target : Vec3R
  up : Vec3R
  fov : ℝ
  aspect_ratio : ℝ
  near_plane : ℝ
  far_plane : ℝ
  yaw : ℝ
  pitch : ℝ
  roll : ℝ
  move_speed : ℝ
  rotation_speed : ℝ
  zoom_speed : ℝ
  view_dirty : Bool
  projection_dirty : Bool
  view_matrix_cache : Option (Option Mat4)
  projection_matrix_cache : Option Mat4

/-- Camera3D.__init__. -/
noncomputable def Camera3D.init : Camera3D :=
  { position := ⟨0, 0, 5⟩
    target := ⟨0, 0, 0⟩
    up := ⟨0, 1, 0⟩
    fov := 45
    aspect_ratio := 16 / 9
    near_plane := 0.1
    far_plane := 1000
    yaw := 0
    pitch := 0
    roll := 0
    move_speed := 1
    rotation_speed := 0.5
    zoom_speed := 0.1
    view_dirty := true
    projection_dirty := true
    view_matrix_cache := none
    projection_matrix_cache := none }

/-- Camera3D.get_distance_to_target. -/
noncomputable def Camera3D.get_distance_to_target (c : Camera3D) : ℝ :=
  let dx := c.position.x - c.target.x
  let dy := c.position.y - c.target.y
  let dz := c.position.z - c.target.z
  Real.sqrt (dx * dx + dy * dy + dz * dz)

/-- Camera3D.zoom: scale the offset from the target so the new length is
`max 0.1 (length * factor)`, but only when the current length exceeds
0.1 (`if length > 0.1`); otherwise nothing changes. -/
noncomputable def Camera3D.zoom (c : Camera3D) (factor : ℝ) : Camera3D :=
  let dx := c.position.x - c.target.x
  let dy := c.position.y - c.target.y
  let dz := c.position.z - c.target.z
  let length := Real.sqrt (dx ^ 2 + dy ^ 2 + dz ^ 2)
  if length > 0.1 then
    let new_length := max 0.1 (length * factor)
    let scale := new_length / length
    { c with
      position := ⟨c.target.x + dx * scale, c.target.y + dy * scale,
        c.target.z + dz * scale⟩
      view_dirty := true }
  else c

/-- Camera3D.orbit_around_target: spherical conversion (inclination 0 when
the radius is 0), scaled deltas in radians, the inclination clamped to
[0.1, pi - 0.1], conversion back; the target is not written. -/
noncomputable def Camera3D.orbit_around_target (c : Camera3D)
    (delta_yaw delta_pitch : ℝ) : Camera3D :=
  let dx := c.position.x - c.target.x
  let dy := c.position.y - c.target.y
  let dz := c.position.z - c.target.z
  let radius := Real.sqrt (dx * dx + dy * dy + dz * dz)
  let theta := atan2 dz dx
  let phi := if radius > 0 then Real.arccos (dy / radius) else 0
  let theta1 := theta + delta_yaw * c.rotation_speed * (Real.pi / 180)
  let phi1 := phi + delta_pitch * c.rotation_speed * (Real.pi / 180)
  let phi2 := max 0.1 (min (Real.pi - 0.1) phi1)
  { c with
    position := ⟨c.target.x + radius * Real.sin phi2 * Real.cos theta1,
      c.target.y + radius * Real.cos phi2,
      c.target.z + radius * Real.sin phi2 * Real.sin theta1⟩
    view_dirty := true }

/-- Camera3D._get_forward_vector: normalized target - position, returned
unnormalized (the zero vector) when its length is 0. -/
noncomputable def Camera3D.get_forward_vector (c : Camera3D) : Vec3R :=
  let dx := c.target.x - c.position.x
  let dy := c.target.y - c.position.y
  let dz := c.target.z - c.position.z
  let length := Real.sqrt (dx ^ 2 + dy ^ 2 + dz ^ 2)
  if length > 0 then ⟨dx / length, dy / length, dz / length⟩ else ⟨dx, dy, dz⟩

/-- Camera3D._get_right_vector: forward x up, normalized under the same
guard. -/
noncomputable def Camera3D.get_right_vector (c : Camera3D) : Vec3R :=
  let f := c.get_forward_vector
  let rx := f.y * c.up.z - f.z * c.up.y
  let ry := f.z * c.up.x - f.x * c.up.z
  let rz := f.x * c.up.y - f.y * c.up.x
  let length := Real.sqrt (rx ^ 2 + ry ^ 2 + rz ^ 2)
  if length > 0 then ⟨rx / length, ry / length, rz / length⟩ else ⟨rx, ry, rz⟩

/-- Camera3D.move_forward. -/
noncomputable def Camera3D.move_forward (c : Camera3D) (distance : ℝ) :
    Camera3D :=
  let f := c.get_forward_vector
  { c with
    position := ⟨c.position.x + f.x * distance * c.move_speed,
      c.position.y + f.y * distance * c.move_speed,
      c.position.z + f.z * distance * c.move_speed⟩
    view_dirty := true }

/-- Camera3D._calculate_view_matrix.  Unlike the movement helpers, this
normalizes `forward = forward / norm(forward)` and
`right = right / norm(right)` with no zero guard: a zero norm makes numpy
emit non-finite entries, modelled as `none`. -/
noncomputable def Camera3D.calculate_view_matrix (c : Camera3D) :
    Option Mat4 :=
  let fx := c.target.x - c.position.x
  let fy := c.target.y - c.position.y
  let fz := c.target.z - c.position.z
  let n1 := Real.sqrt (fx ^ 2 + fy ^ 2 + fz ^ 2)
  if n1 = 0 then none
  else
    let f : Vec3R := ⟨fx / n1, fy / n1, fz / n1⟩
    let rx := f.y * c.up.z - f.z * c.up.y
    let ry := f.z * c.up.x - f.x * c.up.z
    let rz := f.x * c.up.y - f.y * c.up.x
    let n2 := Real.sqrt (rx ^ 2 + ry ^ 2 + rz ^ 2)
    if n2 = 0 then none
    else
      let r : Vec3R := ⟨rx / n2, ry / n2, rz / n2⟩
      let u : Vec3R := ⟨r.y * f.z - r.z * f.y, r.z * f.x - r.x * f.z,
        r.x * f.y - r.y * f.x⟩
      let rotM : Mat4 := Matrix.of
        ![![r.x, u.x, -f.x, 0], ![r.y, u.y, -f.y, 0],
          ![r.z, u.z, -f.z, 0], ![0, 0, 0, 1]]
      let transM : Mat4 := Matrix.of
        ![![1, 0, 0, -c.position.x], ![0, 1, 0, -c.position.y],
          ![0, 0, 1, -c.position.z], ![0, 0, 0, 1]]
      some (rotM * transM)

/-- Camera3D.get_view_matrix: recompute when the dirty flag is set or the
cache is still `None`, otherwise return the cache. -/
noncomputable def Camera3D.get_view_matrix (c : Camera3D) :
    Option Mat4 × Camera3D :=
  if c.view_dirty || c.view_matrix_cache.isNone then
    let m := c.calculate_view_matrix
    (m, { c with view_matrix_cache := some m, view_dirty := false })
  else (c.view_matrix_cache.getD none, c)

/-- Camera3D._calculate_projection_matrix (no degeneracy guard is involved
for the configured fov, so the value is total). -/
noncomputable def Camera3D.calculate_projection_matrix (c : Camera3D) : Mat4 :=
  let fov_rad := c.fov * (Real.pi / 180)
  let f := 1 / Real.tan (fov_rad / 2)
  Matrix.of
    ![![f / c.aspect_ratio, 0, 0, 0],
      ![0, f, 0, 0],
      ![0, 0, (c.far_plane + c.near_plane) / (c.near_plane - c.far_plane),
        2 * c.far_plane * c.near_plane / (c.near_plane - c.far_plane)],
      ![0, 0, -1, 0]]

/-- Camera3D.get_projection_matrix with its dirty-flag cache. -/
noncomputable def Camera3D.get_projection_matrix (c : Camera3D) :
    Mat4 × Camera3D :=
  if c.projection_dirty || c.projection_matrix_cache.isNone then
    let m := c.calculate_projection_matrix
    (m, { c with projection_matrix_cache := some m, projection_dirty := false })
  else (c.projection_matrix_cache.getD c.calculate_projection_matrix, c)

/-- Camera3D.set_aspect_ratio. -/
def Camera3D.set_aspect_ratio (c : Camera3D) (aspect : ℝ) : Camera3D :=
  { c with aspect_ratio := aspect, projection_dirty := true }

/-- RenderStats of src/eva/graphics/renderer.py. -/
structure RenderStats where
  frame_time : ℝ
  fps : ℝ
  triangles_rendered : ℕ
  draw_calls : ℕ
  vertices_processed : ℕ

/-- HolographicPanel of src/eva/core/models.py (the fields
`_create_panel_object` reads). -/
structure HolographicPanel where
  panel_id : String
  title : String
  position : Vector3D
  rotation : Vector3D
  scale : Vector3D
  width : ℚ
  height : ℚ
  depth : ℚ
  opacity : ℚ
  glow_intensity : ℚ
  color_theme : String

/-- HolographicRenderer of src/eva/graphics/renderer.py.  `ctx` and
`shader_manager` record whether the respective Python attribute is a live
object (`is not None`); `frame_buffer` likewise. -/
structure HolographicRenderer where
  ctx : Bool
  shader_manager : Bool
  camera : Camera3D
  scene : Scene3D
  is_initialized : Bool
  viewport_size : ℤ × ℤ
  frame_buffer : Bool
  stats : RenderStats
  frame_times : List ℝ
  glow_intensity : ℝ

/-- HolographicRenderer.__init__ (no GL context yet, `Uninitialized`;
`glow` is `config.ui.holographic_intensity`). -/
noncomputable def HolographicRenderer.init (glow : ℝ) : HolographicRenderer :=
  { ctx := false
    shader_manager := false
    camera := Camera3D.init
    scene := Scene3D.init
    is_initialized := false
    viewport_size := (800, 600)
    frame_buffer := false
    stats := { frame_time := 0, fps := 0, triangles_rendered := 0,
               draw_calls := 0, vertices_processed := 0 }
    frame_times := []
    glow_intensity := glow }

/-- HolographicRenderer._create_panel_object: `None` when the context or
the shader manager is missing; otherwise a wireframe-box scene object with
24 line indices, carrying the panel transform.  (The GL buffer objects and
the material dictionary are outside the model.) -/
def HolographicRenderer.create_panel_object (r : HolographicRenderer)
    (panel : HolographicPanel) : Option SceneObject :=
  if !r.ctx || !r.shader_manager then none
  else
    some { vertex_count := 24
           position := panel.position
           rotation := panel.rotation
           scale := panel.scale
           visible := true
           selectable := true
           interactive := true
           object_type := "generic" }

/-- HolographicRenderer.add_holographic_panel: build the panel object and
add it to the scene under the root node; `False` and no state change when
the object could not be built. -/
def HolographicRenderer.add_holographic_panel (r : HolographicRenderer)
    (panel : HolographicPanel) : Bool × HolographicRenderer :=
  match r.create_panel_object panel with
  | none => (false, r)
  | some obj =>
      (true, { r with scene := (r.scene.add_object panel.panel_id obj "root").2 })

/-- HolographicRenderer.resize_viewport.  The viewport size is recorded
unconditionally; `width / height` then raises ZeroDivisionError when
`height = 0` (the error value carries the partially mutated state);
otherwise the camera aspect ratio is updated.  The framebuffer recreation
only touches GL state (and when the context is missing,
`_create_framebuffer` returns early, leaving the old handle in place), so
the `frame_buffer` flag is unchanged either way. -/
noncomputable def HolographicRenderer.resize_viewport (r : HolographicRenderer)
    (width height : ℤ) : Except HolographicRenderer HolographicRenderer :=
  let r1 := { r with viewport_size := (width, height) }
  if height = 0 then .error r1
  else .ok { r1 with
    camera := r1.camera.set_aspect_ratio ((width : ℝ) / (height : ℝ)) }

/-- HolographicRenderer.render_frame.  Not initialized or no context: an
immediate return, nothing touched.  Otherwise: pull both camera matrices
(refreshing the caches), reset the per-frame counters, issue one draw call
per visible object (none when the shader manager is missing), and update
the rolling frame-time window; `dt` is the measured wall-clock frame time,
an oracle input of the embedding. -/
noncomputable def HolographicRenderer.render_frame (r : HolographicRenderer)
    (dt : ℝ) : HolographicRenderer :=
  if !r.is_initialized || !r.ctx then r
  else
    let vm := r.camera.get_view_matrix
    let pm := vm.2.get_projection_matrix
    let visible := r.scene.get_objects
    let draws := if r.shader_manager then visible.length else 0
    let verts := if r.shader_manager then (visible.map (·.vertex_count)).sum else 0
    let ft1 := r.frame_times ++ [dt]
    { r with
      camera := pm.2
      stats := { frame_time := dt
                 fps := if dt > 0 then 1 / dt else r.stats.fps
                 triangles_rendered := 0
                 draw_calls := draws
                 vertices_processed := verts }
      frame_times := if ft1.length > 60 then ft1.tail else ft1 }

/-! Definitions supporting the individual claims: the operation language of
the spatial-grid invariant, the consistency predicate, the inductive
invariant that proves it, and the concrete scenes, cameras and renderers
of the example-level statements. -/

/-- One call of the C1 operation sequence
(addObject / updateObjectTransform / removeObject). -/
inductive SceneOp : Type where
  | add (object_id : String) (obj : SceneObject) (node_name : String)
  | update (object_id : String) (position rotation scale : Option Vector3D)
  | remove (object_id : String)

def applyOp (s : Scene3D) : SceneOp → Scene3D
  | .add id_ obj nn => (s.add_object id_ obj nn).2
  | .update id_ p r sc => (s.update_object_transform id_ p r sc).2
  | .remove id_ => (s.remove_object id_).2

def applyOps (s : Scene3D) (ops : List SceneOp) : Scene3D :=
  ops.foldl applyOp s

/-- The sequence never re-adds an id that is currently present (no silent
replacement). -/
def freshOps : Scene3D → List SceneOp → Prop
  | _, [] => True
  | s, op :: rest =>
      (match op with
       | .add id_ _ _ => lookupKey s.objects id_ = none
       | _ => True) ∧ freshOps (applyOp s op) rest

/-- Total number of occurrences of an id across all grid buckets. -/
def gridOccur (g : List ((ℤ × ℤ × ℤ) × List String)) (id_ : String) : ℕ :=
  (g.map (fun b => b.2.count id_)).sum

/-- The C1 consistency property: every indexed id sits in exactly one grid
bucket, every bucket holding it is the floor-cell of its current position,
it occurs in exactly one node object map, and no unindexed id survives in
a grid bucket or a node map. -/
def spatialConsistent (s : Scene3D) : Prop :=
  (∀ p ∈ s.objects,
      gridOccur s.spatial_grid p.1 = 1 ∧
      (∀ b ∈ s.spatial_grid, p.1 ∈ b.2 →
        b.1 = gridKeyOf s.grid_size (s.heapObj p.2).position) ∧
      nodeOccur p.1 s.root_node = 1) ∧
  (∀ id_ : String, lookupKey s.objects id_ = none →
      gridOccur s.spatial_grid id_ = 0 ∧ nodeOccur id_ s.root_node = 0)

/-- The inductive invariant behind C1, for scenes built from `Scene3D.init`
by add / update / remove with fresh adds: unique keys and addresses, sane
grid buckets (unique cell keys, duplicate-free buckets, each id exactly in
the cell of its position), and the flat index mirrored in the root node
(the only node such a sequence ever populates). -/
structure GoodScene (s : Scene3D) : Prop where
  keys_nodup : (s.objects.map Prod.fst).Nodup
  refs_nodup : (s.objects.map Prod.snd).Nodup
  heap_keys_lt : ∀ q ∈ s.heap, q.1 < s.next_ref
  refs_lt : ∀ p ∈ s.objects, p.2 < s.next_ref
  grid_keys_nodup : (s.spatial_grid.map Prod.fst).Nodup
  buckets_nodup : ∀ b ∈ s.spatial_grid, b.2.Nodup
  grid_mem : ∀ p ∈ s.objects, ∀ b ∈ s.spatial_grid,
      (p.1 ∈ b.2 ↔ b.1 = gridKeyOf s.grid_size (s.heapObj p.2).position)
  grid_hit : ∀ p ∈ s.objects, ∃ b ∈ s.spatial_grid,
      b.1 = gridKeyOf s.grid_size (s.heapObj p.2).position
  grid_orphan : ∀ id_ : String, lookupKey s.objects id_ = none →
      ∀ b ∈ s.spatial_grid, id_ ∉ b.2
  root_eq : s.root_node =
      SceneNode.mk "root" ⟨0, 0, 0⟩ ⟨0, 0, 0⟩ ⟨1, 1, 1⟩ true s.objects []
  names_eq : s.node_names = ["root"]

/-- An object with all dataclass defaults at a given position. -/
def objAt (p : Vector3D) : SceneObject := { position := p }

/-- An invisible but selectable object at a given position. -/
def ghostAt (p : Vector3D) : SceneObject := { position := p, visible := false }

/-- Acceptance of one object by the raycast sphere test: selectable, not
behind the origin, perpendicular distance at most the unit sphere radius,
projection below the distance bound. -/
def RayHit (ray_origin ray_direction : Vector3D) (md : ℚ)
    (o : SceneObject) : Prop :=
  o.selectable = true ∧ 0 ≤ rayProj ray_origin ray_direction o ∧
  rayPerpSq ray_origin ray_direction o ≤ 1 ∧
  rayProj ray_origin ray_direction o < md

/-- Rewrite every heap cell (used to state that picking and proximity
queries ignore flags that the rewrite may change). -/
def mapHeap (g : SceneObject → SceneObject) (s : Scene3D) : Scene3D :=
  { s with heap := s.heap.map (fun q => (q.1, g q.2)) }

/-- The scene of the raycast determinism example: one selectable object at
(0, 0, -5). -/
def sceneRay : Scene3D :=
  (Scene3D.init.add_object "panel" (objAt ⟨0, 0, -5⟩) "root").2

/-- One invisible but selectable object at (0, 0, -5). -/
def sceneGhost : Scene3D :=
  (Scene3D.init.add_object "ghost" (ghostAt ⟨0, 0, -5⟩) "root").2

/-- Adding the same id twice, at positions in different grid cells. -/
def sceneDupAdd : Scene3D :=
  applyOps Scene3D.init
    [.add "a" (objAt ⟨0, 0, 0⟩) "root", .add "a" (objAt ⟨15, 0, 0⟩) "root"]

/-- One object "a" at the origin under the root node. -/
def sceneOne : Scene3D :=
  (Scene3D.init.add_object "a" (objAt ⟨0, 0, 0⟩) "root").2

/-- A child node "panels" holding one object "a" at the origin. -/
def scenePanels : Scene3D :=
  (((Scene3D.init.create_node "panels" "root").2).add_object "a"
    (objAt ⟨0, 0, 0⟩) "panels").2

/-- `scenePanels` after `remove_node("panels")`. -/
def scenePanelsRemoved : Scene3D := (scenePanels.remove_node "panels").2

/-- Iterated `zoom(0.01)` from the default camera. -/
noncomputable def zoomIter : ℕ → Camera3D
  | 0 => Camera3D.init
  | n + 1 => (zoomIter n).zoom 0.01

/-- The default camera moved onto its own target (length-zero forward
vector). -/
noncomputable def degenerateCamera : Camera3D :=
  { Camera3D.init with position := ⟨0, 0, 0⟩ }

/-- A camera closer to the target than the 0.1 zoom floor. -/
noncomputable def nearCamera : Camera3D :=
  { Camera3D.init with position := ⟨0, 0, 0.05⟩ }

/-- A freshly constructed (Uninitialized) renderer. -/
noncomputable def freshRenderer : HolographicRenderer :=
  HolographicRenderer.init 1

/-- A concrete panel for the C8 witness. -/
def panelW : HolographicPanel :=
  { panel_id := "p1", title := "t", position := ⟨0, 0, 0⟩,
    rotation := ⟨0, 0, 0⟩, scale := ⟨1, 1, 1⟩, width := 400, height := 300,
    depth := 20, opacity := 9 / 10, glow_intensity := 1, color_theme := "cyan" }

/-- Loop invariant of the raycast fold: `pre` is the already processed
prefix of the item list and `st` the `(closest_object, closest_distance)`
accumulator.  While nothing is hit the distance is still `max_distance`;
once hit, the accumulator holds an accepted object of the prefix at its
projection distance, minimal among all accepted prefix objects. -/
def RayInv (ray_origin ray_direction : Vector3D) (md : ℚ)
    (pre : List (String × SceneObject)) (st : Option String × ℚ) : Prop :=
  st.2 ≤ md ∧
  (st.1 = none → st.2 = md ∧
    ∀ q ∈ pre, ¬ RayHit ray_origin ray_direction md q.2) ∧
  (∀ id_ : String, st.1 = some id_ →
    (∃ o, (id_, o) ∈ pre ∧ RayHit ray_origin ray_direction md o ∧
      rayProj ray_origin ray_direction o = st.2) ∧
    ∀ q ∈ pre, RayHit ray_origin ray_direction md q.2 →
      st.2 ≤ rayProj ray_origin ray_direction q.2)

/-! ## Theorems -/

/-- C6: orbit_around_target never changes the distance to the target (the
statement is exact over the idealised real arithmetic) and leaves the
target point unchanged. -/
theorem orbit_around_target_radius_invariant (c : Camera3D) (dy dp : ℝ) :
    (c.orbit_around_target dy dp).get_distance_to_target =
      c.get_distance_to_target ∧
    (c.orbit_around_target dy dp).target = c.target := by
  refine ⟨?_, rfl⟩
  simp only [Camera3D.orbit_around_target, Camera3D.get_distance_to_target]
  set dx := c.position.x - c.target.x with hdx
  set dy2 := c.position.y - c.target.y with hdy
  set dz := c.position.z - c.target.z with hdz
  set R := Real.sqrt (dx * dx + dy2 * dy2 + dz * dz) with hR
  set th := atan2 dz dx + dy * c.rotation_speed * (Real.pi / 180) with hth
  set ph := max 0.1 (min (Real.pi - 0.1)
    ((if R > 0 then Real.arccos (dy2 / R) else 0) +
      dp * c.rotation_speed * (Real.pi / 180))) with hph
  have h1 := Real.sin_sq_add_cos_sq th
  have h2 := Real.sin_sq_add_cos_sq ph
  have hsum :
      (c.target.x + R * Real.sin ph * Real.cos th - c.target.x) *
        (c.target.x + R * Real.sin ph * Real.cos th - c.target.x) +
      (c.target.y + R * Real.cos ph - c.target.y) *
        (c.target.y + R * Real.cos ph - c.target.y) +
      (c.target.z + R * Real.sin ph * Real.sin th - c.target.z) *
        (c.target.z + R * Real.sin ph * Real.sin th - c.target.z) = R ^ 2 := by
    linear_combination (R ^ 2 * Real.sin ph ^ 2) * h1 + R ^ 2 * h2
  rw [hsum, Real.sqrt_sq (hR ▸ Real.sqrt_nonneg _)]

/-- The distance to target written with squares instead of self-products. -/
theorem get_distance_to_target_sq (c : Camera3D) :
    c.get_distance_to_target =
      Real.sqrt ((c.position.x - c.target.x) ^ 2 +
        (c.position.y - c.target.y) ^ 2 + (c.position.z - c.target.z) ^ 2) := by
  simp only [Camera3D.get_distance_to_target]
  congr 1
  ring

/-- Above the 0.1 floor, zoom rescales the distance to
`max 0.1 (distance * factor)`. -/
theorem zoom_dist_eq (c : Camera3D) (factor : ℝ)
    (h : 0.1 < c.get_distance_to_target) :
    (c.zoom factor).get_distance_to_target =
      max 0.1 (c.get_distance_to_target * factor) := by
  have h2 : 0.1 < Real.sqrt ((c.position.x - c.target.x) ^ 2 +
      (c.position.y - c.target.y) ^ 2 + (c.position.z - c.target.z) ^ 2) := by
    rw [← get_distance_to_target_sq]
    exact h
  simp only [Camera3D.zoom]
  rw [if_pos h2, get_distance_to_target_sq, get_distance_to_target_sq c]
  dsimp only
  set dx := c.position.x - c.target.x with hdx
  set dy := c.position.y - c.target.y with hdy
  set dz := c.position.z - c.target.z with hdz
  set d := Real.sqrt (dx ^ 2 + dy ^ 2 + dz ^ 2) with hd
  have hdpos : 0 < d := lt_trans (by norm_num) h2
  have hmaxpos : (0 : ℝ) < max 0.1 (d * factor) :=
    lt_of_lt_of_le (by norm_num) (le_max_left _ _)
  have harg :
      (c.target.x + dx * (max 0.1 (d * factor) / d) - c.target.x) ^ 2 +
      (c.target.y + dy * (max 0.1 (d * factor) / d) - c.target.y) ^ 2 +
      (c.target.z + dz * (max 0.1 (d * factor) / d) - c.target.z) ^ 2 =
      (max 0.1 (d * factor) / d) ^ 2 * (dx ^ 2 + dy ^ 2 + dz ^ 2) := by
    ring
  rw [harg, Real.sqrt_mul (sq_nonneg _), Real.sqrt_sq_eq_abs, ← hd,
    abs_of_pos (div_pos hmaxpos hdpos), div_mul_cancel₀ _ (ne_of_gt hdpos)]

/-- At or below the 0.1 floor, zoom does nothing at all. -/
theorem zoom_no_op (c : Camera3D) (factor : ℝ)
    (h : ¬ 0.1 < c.get_distance_to_target) :
    c.zoom factor = c := by
  rw [get_distance_to_target_sq] at h
  simp only [Camera3D.zoom]
  rw [if_neg h]

/-- Zoom never writes the target. -/
theorem zoom_target_eq (c : Camera3D) (factor : ℝ) :
    (c.zoom factor).target = c.target := by
  simp only [Camera3D.zoom]
  by_cases h : Real.sqrt ((c.position.x - c.target.x) ^ 2 +
      (c.position.y - c.target.y) ^ 2 + (c.position.z - c.target.z) ^ 2) > 0.1
  · rw [if_pos h]
  · rw [if_neg h]

/-- Zoom preserves the 0.1 floor, whatever the factor. -/
theorem zoom_floor (c : Camera3D) (factor : ℝ)
    (h : 0.1 ≤ c.get_distance_to_target) :
    0.1 ≤ (c.zoom factor).get_distance_to_target := by
  by_cases hgt : 0.1 < c.get_distance_to_target
  · rw [zoom_dist_eq c factor hgt]
    exact le_max_left _ _
  · rw [zoom_no_op c factor hgt]
    exact h

/-- The default camera sits at distance 5 from its target. -/
theorem init_distance : Camera3D.init.get_distance_to_target = 5 := by
  rw [get_distance_to_target_sq]
  show Real.sqrt (((0 : ℝ) - 0) ^ 2 + ((0 : ℝ) - 0) ^ 2 + ((5 : ℝ) - 0) ^ 2) = 5
  rw [show ((0 : ℝ) - 0) ^ 2 + ((0 : ℝ) - 0) ^ 2 + ((5 : ℝ) - 0) ^ 2 = 5 ^ 2 by norm_num,
    Real.sqrt_sq (by norm_num : (0 : ℝ) ≤ 5)]

/-- C5 counterexample: at distance 0.05 the guard `length > 0.1` is false
and zoom(2) changes nothing, while the claimed formula demands
max(0.1, 0.05 * 2) = 0.1. -/
theorem zoom_formula_cex :
    (nearCamera.zoom 2).get_distance_to_target ≠
      max 0.1 (nearCamera.get_distance_to_target * 2) := by
  have hdist : nearCamera.get_distance_to_target = 0.05 := by
    rw [get_distance_to_target_sq]
    show Real.sqrt (((0 : ℝ) - 0) ^ 2 + ((0 : ℝ) - 0) ^ 2 +
      ((0.05 : ℝ) - 0) ^ 2) = 0.05
    rw [show ((0 : ℝ) - 0) ^ 2 + ((0 : ℝ) - 0) ^ 2 + ((0.05 : ℝ) - 0) ^ 2 =
      (0.05 : ℝ) ^ 2 by norm_num, Real.sqrt_sq (by norm_num : (0 : ℝ) ≤ 0.05)]
  rw [zoom_no_op _ _ (by rw [hdist]; norm_num), hdist,
    show (0.05 : ℝ) * 2 = 0.1 by norm_num, max_self]
  norm_num

/-- C5 (amended): when the current distance to target exceeds 0.1, zoom
scales the offset so the new distance is exactly max 0.1 (distance *
factor) and the target never moves; at distance 0.1 or below, zoom is a
no-op instead of applying that formula.  Repeated zoom(0.01) from the
default camera consequently never drops the distance below 0.1. -/
theorem zoom_scales_with_floor :
    (∀ (c : Camera3D) (factor : ℝ),
        (0.1 < c.get_distance_to_target →
          (c.zoom factor).get_distance_to_target =
            max 0.1 (c.get_distance_to_target * factor)) ∧
        (¬ 0.1 < c.get_distance_to_target → c.zoom factor = c) ∧
        (c.zoom factor).target = c.target) ∧
    (∀ n : ℕ, 0.1 ≤ (zoomIter n).get_distance_to_target) := by
  constructor
  · intro c factor
    exact ⟨zoom_dist_eq c factor, zoom_no_op c factor, zoom_target_eq c factor⟩
  · intro n
    induction n with
    | zero =>
        rw [show zoomIter 0 = Camera3D.init from rfl, init_distance]
        norm_num
    | succ k ih => exact zoom_floor _ _ ih

/-- C7 (the code at the failing input): with the camera position equal to
its target, the unguarded `forward / norm(forward)` of
_calculate_view_matrix divides by a zero norm, so the view matrix — also
through the lazy get_view_matrix — carries non-finite entries (`none`),
while the guarded helper _get_forward_vector substitutes the zero
vector as a safe default. -/
theorem view_matrix_degenerate :
    degenerateCamera.calculate_view_matrix = none ∧
    (degenerateCamera.get_view_matrix).1 = none ∧
    degenerateCamera.get_forward_vector = ⟨0, 0, 0⟩ := by
  have hn : Real.sqrt ((degenerateCamera.target.x - degenerateCamera.position.x) ^ 2 +
      (degenerateCamera.target.y - degenerateCamera.position.y) ^ 2 +
      (degenerateCamera.target.z - degenerateCamera.position.z) ^ 2) = 0 := by
    show Real.sqrt (((0 : ℝ) - 0) ^ 2 + ((0 : ℝ) - 0) ^ 2 + ((0 : ℝ) - 0) ^ 2) = 0
    rw [show ((0 : ℝ) - 0) ^ 2 + ((0 : ℝ) - 0) ^ 2 + ((0 : ℝ) - 0) ^ 2 = (0 : ℝ)
      by norm_num, Real.sqrt_zero]
  have hcvm : degenerateCamera.calculate_view_matrix = none := by
    simp only [Camera3D.calculate_view_matrix]
    rw [if_pos hn]
  refine ⟨hcvm, ?_, ?_⟩
  · simp only [Camera3D.get_view_matrix]
    rw [if_pos (by rfl : (degenerateCamera.view_dirty ||
      degenerateCamera.view_matrix_cache.isNone) = true)]
    exact hcvm
  · simp only [Camera3D.get_forward_vector]
    rw [if_neg (by rw [hn]; norm_num)]
    show (⟨(0 : ℝ) - 0, (0 : ℝ) - 0, (0 : ℝ) - 0⟩ : Vec3R) = ⟨0, 0, 0⟩
    norm_num

/-! ## Association-list lemmas -/

@[simp] theorem lookupKey_nil {α β : Type} [DecidableEq α] (k : α) :
    lookupKey ([] : List (α × β)) k = none := rfl

@[simp] theorem lookupKey_cons_self {α β : Type} [DecidableEq α]
    (k : α) (v : β) (l : List (α × β)) :
    lookupKey ((k, v) :: l) k = some v := by
  simp [lookupKey]

theorem lookupKey_cons_ne {α β : Type} [DecidableEq α]
    {k' k : α} (v : β) (l : List (α × β)) (h : k' ≠ k) :
    lookupKey ((k', v) :: l) k = lookupKey l k := by
  simp [lookupKey, h]

theorem lookupKey_eq_none {α β : Type} [DecidableEq α]
    {l : List (α × β)} {k : α} :
    lookupKey l k = none ↔ k ∉ l.map Prod.fst := by
  induction l with
  | nil => simp
  | cons p ps ih =>
      by_cases h : p.1 = k
      · subst h
        simp [lookupKey]
      · simp [lookupKey, h, ih, Ne.symm h]

theorem lookupKey_isSome {α β : Type} [DecidableEq α]
    {l : List (α × β)} {k : α} :
    (lookupKey l k).isSome ↔ k ∈ l.map Prod.fst := by
  rcases h : lookupKey l k with _ | v
  · simp [lookupKey_eq_none.mp h]
  · have : ¬ lookupKey l k = none := by simp [h]
    simp [lookupKey_eq_none] at this
    simp [this]

theorem lookupKey_append {α β : Type} [DecidableEq α]
    (l₁ l₂ : List (α × β)) (k : α) :
    lookupKey (l₁ ++ l₂) k =
      match lookupKey l₁ k with
      | some v => some v
      | none => lookupKey l₂ k := by
  induction l₁ with
  | nil => simp
  | cons p ps ih =>
      by_cases h : p.1 = k
      · simp [lookupKey, h]
      · simp [lookupKey, h, ih]

theorem insertKey_of_lookup_none {α β : Type} [DecidableEq α]
    {l : List (α × β)} {k : α} (v : β) (h : lookupKey l k = none) :
    insertKey l k v = l ++ [(k, v)] := by
  induction l with
  | nil => rfl
  | cons p ps ih =>
      by_cases hp : p.1 = k
      · rw [← hp] at h
        simp [lookupKey] at h
      · have hps : lookupKey ps k = none := by
          rw [← h, lookupKey_cons_ne _ _ hp]
        simp [insertKey, hp, ih hps]

theorem eraseKey_append_singleton {α β : Type} [DecidableEq α]
    {l : List (α × β)} {k : α} (v : β) (h : lookupKey l k = none) :
    eraseKey (l ++ [(k, v)]) k = l := by
  induction l with
  | nil => simp [eraseKey]
  | cons p ps ih =>
      by_cases hp : p.1 = k
      · rw [← hp] at h
        simp [lookupKey] at h
      · have hps : lookupKey ps k = none := by
          rw [← h, lookupKey_cons_ne _ _ hp]
        simp [eraseKey, hp, ih hps]

/-! ## Field-preservation lemmas for the scene operations -/

@[simp] theorem update_spatial_index_objects (s : Scene3D) (i : String)
    (o : SceneObject) : (s.update_spatial_index i o).objects = s.objects := by
  simp only [Scene3D.update_spatial_index]
  repeat' split
  all_goals rfl

@[simp] theorem update_spatial_index_heap (s : Scene3D) (i : String)
    (o : SceneObject) : (s.update_spatial_index i o).heap = s.heap := by
  simp only [Scene3D.update_spatial_index]
  repeat' split
  all_goals rfl

@[simp] theorem update_spatial_index_node_names (s : Scene3D) (i : String)
    (o : SceneObject) : (s.update_spatial_index i o).node_names = s.node_names := by
  simp only [Scene3D.update_spatial_index]
  repeat' split
  all_goals rfl

@[simp] theorem update_spatial_index_root (s : Scene3D) (i : String)
    (o : SceneObject) : (s.update_spatial_index i o).root_node = s.root_node := by
  simp only [Scene3D.update_spatial_index]
  repeat' split
  all_goals rfl

@[simp] theorem update_spatial_index_next_ref (s : Scene3D) (i : String)
    (o : SceneObject) : (s.update_spatial_index i o).next_ref = s.next_ref := by
  simp only [Scene3D.update_spatial_index]
  repeat' split
  all_goals rfl

@[simp] theorem update_spatial_index_grid_size (s : Scene3D) (i : String)
    (o : SceneObject) : (s.update_spatial_index i o).grid_size = s.grid_size := by
  simp only [Scene3D.update_spatial_index]
  repeat' split
  all_goals rfl

@[simp] theorem remove_from_spatial_index_objects (s : Scene3D) (i : String)
    (o : SceneObject) : (s.remove_from_spatial_index i o).objects = s.objects := by
  simp only [Scene3D.remove_from_spatial_index]
  repeat' split
  all_goals rfl

@[simp] theorem remove_from_spatial_index_heap (s : Scene3D) (i : String)
    (o : SceneObject) : (s.remove_from_spatial_index i o).heap = s.heap := by
  simp only [Scene3D.remove_from_spatial_index]
  repeat' split
  all_goals rfl

@[simp] theorem remove_from_spatial_index_node_names (s : Scene3D) (i : String)
    (o : SceneObject) :
    (s.remove_from_spatial_index i o).node_names = s.node_names := by
  simp only [Scene3D.remove_from_spatial_index]
  repeat' split
  all_goals rfl

@[simp] theorem remove_from_spatial_index_root (s : Scene3D) (i : String)
    (o : SceneObject) :
    (s.remove_from_spatial_index i o).root_node = s.root_node := by
  simp only [Scene3D.remove_from_spatial_index]
  repeat' split
  all_goals rfl

@[simp] theorem remove_from_spatial_index_next_ref (s : Scene3D) (i : String)
    (o : SceneObject) :
    (s.remove_from_spatial_index i o).next_ref = s.next_ref := by
  simp only [Scene3D.remove_from_spatial_index]
  repeat' split
  all_goals rfl

@[simp] theorem remove_from_spatial_index_grid_size (s : Scene3D) (i : String)
    (o : SceneObject) :
    (s.remove_from_spatial_index i o).grid_size = s.grid_size := by
  simp only [Scene3D.remove_from_spatial_index]
  repeat' split
  all_goals rfl

theorem lookupKey_insertKey_self {α β : Type} [DecidableEq α]
    (l : List (α × β)) (k : α) (v : β) :
    lookupKey (insertKey l k v) k = some v := by
  induction l with
  | nil => simp [insertKey]
  | cons p ps ih =>
      by_cases h : p.1 = k
      · simp [insertKey, h]
      · simp [insertKey, h, lookupKey_cons_ne _ _ h, ih]

/-- C9 (amended): for an id not already present, addObject then
removeObject restores the total_objects statistic. -/
theorem add_remove_round_trip (s : Scene3D) (object_id : String)
    (obj : SceneObject) (h : lookupKey s.objects object_id = none) :
    (((s.add_object object_id obj "root").2.remove_object
        object_id).2.get_stats).total_objects =
      (s.get_stats).total_objects := by
  cases hn : s.getNode "root" with
  | none => simp only [Scene3D.add_object, hn, Scene3D.remove_object, h]
  | some nd =>
      simp only [Scene3D.add_object, hn]
      simp only [Scene3D.remove_object, update_spatial_index_objects,
        lookupKey_insertKey_self]
      simp only [Scene3D.get_stats, remove_from_spatial_index_objects,
        update_spatial_index_objects]
      rw [insertKey_of_lookup_none _ h, eraseKey_append_singleton _ h]

/-- C9 witness: the round trip at the empty scene. -/
theorem add_remove_round_trip_witness :
    (((Scene3D.init.add_object "a" (objAt ⟨0, 0, 0⟩) "root").2.remove_object
        "a").2.get_stats).total_objects =
      (Scene3D.init.get_stats).total_objects :=
  add_remove_round_trip Scene3D.init "a" (objAt ⟨0, 0, 0⟩) rfl

/-- C9 counterexample: when the id is already present, the add silently
replaces and the remove then deletes, so total_objects drops by one
instead of returning to its pre-add value. -/
theorem add_remove_total_cex :
    (((sceneOne.add_object "a" (objAt ⟨0, 0, 0⟩) "root").2.remove_object
        "a").2.get_stats).total_objects ≠
      (sceneOne.get_stats).total_objects := by
  have h1 : sceneOne.objects = [("a", 0)] := by
    simp [sceneOne, Scene3D.add_object, Scene3D.init, Scene3D.getNode,
      findNode, SceneNode.fresh, insertKey]
  have hg : sceneOne.getNode "root" = some (SceneNode.mk "root" ⟨0, 0, 0⟩
      ⟨0, 0, 0⟩ ⟨1, 1, 1⟩ true [("a", 0)] []) := by
    simp [sceneOne, Scene3D.add_object, Scene3D.init, Scene3D.getNode,
      findNode, SceneNode.fresh, SceneNode.withObjects, insertKey,
      mapNode, Scene3D.update_spatial_index]
  simp only [Scene3D.add_object, hg]
  simp only [Scene3D.remove_object, update_spatial_index_objects,
    lookupKey_insertKey_self]
  simp only [Scene3D.get_stats, remove_from_spatial_index_objects,
    update_spatial_index_objects, h1]
  simp [insertKey, eraseKey]

/-- C3 (amended): create_node fails (returns None) exactly on a missing
parent; a duplicate name is not a failure — the call returns the already
existing node and leaves the scene unchanged; otherwise a fresh node is
attached under the parent, returned, and listed in the node table. -/
theorem create_node_spec :
    (∀ (s : Scene3D) (name parent_name : String), name ∈ s.node_names →
        s.create_node name parent_name = (s.getNode name, s)) ∧
    (∀ (s : Scene3D) (name parent_name : String), name ∉ s.node_names →
        s.getNode parent_name = none →
        s.create_node name parent_name = (none, s)) ∧
    (∀ (s : Scene3D) (name parent_name : String) (pnode : SceneNode),
        name ∉ s.node_names → s.getNode parent_name = some pnode →
        (s.create_node name parent_name).1 = some (SceneNode.fresh name) ∧
        (s.create_node name parent_name).2.node_names =
          s.node_names ++ [name] ∧
        (s.create_node name parent_name).2.root_node =
          mapNode parent_name (SceneNode.withChild (SceneNode.fresh name))
            s.root_node ∧
        (s.create_node name parent_name).2.objects = s.objects) := by
  refine ⟨?_, ?_, ?_⟩
  · intro s name pn h
    simp [Scene3D.create_node, h]
  · intro s name pn h hp
    simp [Scene3D.create_node, h, hp]
  · intro s name pn pnode h hp
    simp [Scene3D.create_node, h, hp]

/-- C3 counterexample: creating "a" twice does not fail — the second call
returns a node (the existing one), where the claim demands a
DuplicateName failure value. -/
theorem create_node_duplicate_cex :
    (((Scene3D.init.create_node "a" "root").2).create_node "a" "root").1.isSome
      = true := by
  decide

/-- C8 (amended): while the renderer is Uninitialized, render_frame is a
strict no-op, and the addPanel entry point with no GL context changes
nothing and returns False; resize_viewport, however, is not gated: even
while Uninitialized it records the new viewport size (and updates the
camera aspect ratio). -/
theorem uninitialized_renderer_gating :
    (∀ (r : HolographicRenderer) (dt : ℝ), r.is_initialized = false →
        r.render_frame dt = r) ∧
    (∀ (r : HolographicRenderer) (panel : HolographicPanel), r.ctx = false →
        r.add_holographic_panel panel = (false, r)) ∧
    (∀ (r : HolographicRenderer) (w h : ℤ), h ≠ 0 →
        (r.resize_viewport w h).map HolographicRenderer.viewport_size =
          .ok (w, h)) := by
  refine ⟨?_, ?_, ?_⟩
  · intro r dt h
    simp [HolographicRenderer.render_frame, h]
  · intro r panel h
    simp [HolographicRenderer.add_holographic_panel,
      HolographicRenderer.create_panel_object, h]
  · intro r w h hh
    simp [HolographicRenderer.resize_viewport, hh, Except.map]

/-- C8 counterexample: a freshly constructed renderer is Uninitialized
with viewport (800, 600), yet resize_viewport(1024, 768) succeeds and
overwrites the stored viewport size — a state change, not a no-op. -/
theorem resize_viewport_not_gated_cex :
    freshRenderer.is_initialized = false ∧
    freshRenderer.viewport_size = (800, 600) ∧
    (freshRenderer.resize_viewport 1024 768).map
      HolographicRenderer.viewport_size = .ok (1024, 768) := by
  refine ⟨rfl, rfl, ?_⟩
  simp [HolographicRenderer.resize_viewport, Except.map]

theorem rayPerpSq_nonneg (ro rd : Vector3D) (o : SceneObject) :
    0 ≤ rayPerpSq ro rd o := by
  have h1 := mul_self_nonneg (o.position.x - (ro.x + rd.x * rayProj ro rd o))
  have h2 := mul_self_nonneg (o.position.y - (ro.y + rd.y * rayProj ro rd o))
  have h3 := mul_self_nonneg (o.position.z - (ro.z + rd.z * rayProj ro rd o))
  simp only [rayPerpSq]
  linarith

/-- The comparison the code makes with `** 0.5` against the unit sphere
radius, reduced to exact rational arithmetic. -/
theorem sqrt_perp_le_one_iff (ro rd : Vector3D) (o : SceneObject) :
    Real.sqrt ((rayPerpSq ro rd o : ℚ) : ℝ) ≤ 1 ↔ rayPerpSq ro rd o ≤ 1 := by
  have hnn : (0 : ℝ) ≤ ((rayPerpSq ro rd o : ℚ) : ℝ) := by
    exact_mod_cast rayPerpSq_nonneg ro rd o
  constructor
  · intro hle
    have hsq := Real.sq_sqrt hnn
    have h1 : Real.sqrt ((rayPerpSq ro rd o : ℚ) : ℝ) ^ 2 ≤ 1 := by
      nlinarith [Real.sqrt_nonneg ((rayPerpSq ro rd o : ℚ) : ℝ)]
    rw [hsq] at h1
    exact_mod_cast h1
  · intro hle
    have hle2 : ((rayPerpSq ro rd o : ℚ) : ℝ) ≤ 1 := by exact_mod_cast hle
    calc Real.sqrt ((rayPerpSq ro rd o : ℚ) : ℝ)
        ≤ Real.sqrt 1 := Real.sqrt_le_sqrt hle2
      _ = 1 := Real.sqrt_one

/-- The raycast loop body over exact rational comparisons. -/
theorem raycastStep_eq (ro rd : Vector3D) (acc : Option String × ℚ)
    (p : String × SceneObject) :
    raycastStep ro rd acc p =
      if p.2.selectable = false then acc
      else if rayProj ro rd p.2 < 0 then acc
      else if rayPerpSq ro rd p.2 ≤ 1 ∧ rayProj ro rd p.2 < acc.2 then
        (some p.1, rayProj ro rd p.2)
      else acc := by
  by_cases h1 : p.2.selectable = false
  · simp [raycastStep, h1]
  · by_cases h2 : rayProj ro rd p.2 < 0
    · simp [raycastStep, h1, h2]
    · by_cases h3 : rayPerpSq ro rd p.2 ≤ 1 ∧ rayProj ro rd p.2 < acc.2
      · have h3r : Real.sqrt ((rayPerpSq ro rd p.2 : ℚ) : ℝ) ≤ 1 ∧
            rayProj ro rd p.2 < acc.2 :=
          ⟨(sqrt_perp_le_one_iff ro rd p.2).2 h3.1, h3.2⟩
        simp [raycastStep, h1, h2, h3, h3r]
      · have h3r : ¬ (Real.sqrt ((rayPerpSq ro rd p.2 : ℚ) : ℝ) ≤ 1 ∧
            rayProj ro rd p.2 < acc.2) :=
          fun hc => h3 ⟨(sqrt_perp_le_one_iff ro rd p.2).1 hc.1, hc.2⟩
        simp only [raycastStep, h1, if_neg h1, if_pos, if_neg h2, if_neg h3,
          if_neg h3r, Bool.false_eq_true, ite_false]

theorem rayInv_step (ro rd : Vector3D) (md : ℚ)
    (pre : List (String × SceneObject)) (st : Option String × ℚ)
    (p : String × SceneObject) (h : RayInv ro rd md pre st) :
    RayInv ro rd md (pre ++ [p]) (raycastStep ro rd st p) := by
  obtain ⟨hle, hnone, hsome⟩ := h
  rw [raycastStep_eq]
  by_cases h1 : p.2.selectable = false
  · rw [if_pos h1]
    have hnohit : ¬ RayHit ro rd md p.2 := fun hh => by
      rw [hh.1] at h1
      exact absurd h1 (by simp)
    refine ⟨hle, ?_, ?_⟩
    · intro hn
      obtain ⟨he, hq⟩ := hnone hn
      refine ⟨he, ?_⟩
      intro q hq2
      rcases List.mem_append.1 hq2 with hmem | hmem
      · exact hq q hmem
      · rw [List.mem_singleton.1 hmem]
        exact hnohit
    · intro id_ hs
      obtain ⟨⟨o, ho, hho, hpo⟩, hmin⟩ := hsome id_ hs
      refine ⟨⟨o, List.mem_append_left _ ho, hho, hpo⟩, ?_⟩
      intro q hq2 hhq
      rcases List.mem_append.1 hq2 with hmem | hmem
      · exact hmin q hmem hhq
      · rw [List.mem_singleton.1 hmem] at hhq
        exact absurd hhq hnohit
  · rw [if_neg h1]
    by_cases h2 : rayProj ro rd p.2 < 0
    · rw [if_pos h2]
      have hnohit : ¬ RayHit ro rd md p.2 := fun hh => absurd h2 (not_lt.2 hh.2.1)
      refine ⟨hle, ?_, ?_⟩
      · intro hn
        obtain ⟨he, hq⟩ := hnone hn
        refine ⟨he, ?_⟩
        intro q hq2
        rcases List.mem_append.1 hq2 with hmem | hmem
        · exact hq q hmem
        · rw [List.mem_singleton.1 hmem]
          exact hnohit
      · intro id_ hs
        obtain ⟨⟨o, ho, hho, hpo⟩, hmin⟩ := hsome id_ hs
        refine ⟨⟨o, List.mem_append_left _ ho, hho, hpo⟩, ?_⟩
        intro q hq2 hhq
        rcases List.mem_append.1 hq2 with hmem | hmem
        · exact hmin q hmem hhq
        · rw [List.mem_singleton.1 hmem] at hhq
          exact absurd hhq hnohit
    · rw [if_neg h2]
      by_cases h3 : rayPerpSq ro rd p.2 ≤ 1 ∧ rayProj ro rd p.2 < st.2
      · rw [if_pos h3]
        have hhit : RayHit ro rd md p.2 :=
          ⟨by simpa using h1, not_lt.1 h2, h3.1, lt_of_lt_of_le h3.2 hle⟩
        refine ⟨le_of_lt (lt_of_lt_of_le h3.2 hle), ?_, ?_⟩
        · intro hn
          simp at hn
        · intro id_ hs
          simp only [Option.some.injEq] at hs
          subst hs
          constructor
          · exact ⟨p.2, by simp, hhit, rfl⟩
          · intro q hq2 hhq
            rcases List.mem_append.1 hq2 with hmem | hmem
            · rcases hst : st.1 with _ | j
              · exact absurd hhq ((hnone hst).2 q hmem)
              · have := (hsome j hst).2 q hmem hhq
                exact le_trans (le_of_lt h3.2) this
            · rw [List.mem_singleton.1 hmem]
      · rw [if_neg h3]
        refine ⟨hle, ?_, ?_⟩
        · intro hn
          obtain ⟨he, hq⟩ := hnone hn
          refine ⟨he, ?_⟩
          intro q hq2
          rcases List.mem_append.1 hq2 with hmem | hmem
          · exact hq q hmem
          · rw [List.mem_singleton.1 hmem]
            intro hhq
            exact h3 ⟨hhq.2.2.1, by rw [he]; exact hhq.2.2.2⟩
        · intro id_ hs
          obtain ⟨⟨o, ho, hho, hpo⟩, hmin⟩ := hsome id_ hs
          refine ⟨⟨o, List.mem_append_left _ ho, hho, hpo⟩, ?_⟩
          intro q hq2 hhq
          rcases List.mem_append.1 hq2 with hmem | hmem
          · exact hmin q hmem hhq
          · rw [List.mem_singleton.1 hmem] at hhq ⊢
            exact not_lt.1 fun hc => h3 ⟨hhq.2.2.1, hc⟩

theorem rayInv_fold (ro rd : Vector3D) (md : ℚ) :
    ∀ (items pre : List (String × SceneObject)) (st : Option String × ℚ),
      RayInv ro rd md pre st →
      RayInv ro rd md (pre ++ items) (items.foldl (raycastStep ro rd) st) := by
  intro items
  induction items with
  | nil =>
      intro pre st h
      simpa using h
  | cons p ps ih =>
      intro pre st h
      have h2 := ih (pre ++ [p]) _ (rayInv_step ro rd md pre st p h)
      simpa [List.append_assoc] using h2

theorem raycast_rayInv (s : Scene3D) (ro rd : Vector3D) (md : ℚ) :
    RayInv ro rd md s.objectItems
      (s.objectItems.foldl (raycastStep ro rd) (none, md)) := by
  have h0 : RayInv ro rd md [] (none, md) := by
    refine ⟨le_refl _, ?_, ?_⟩
    · intro _
      exact ⟨rfl, by simp⟩
    · intro id_ hs
      simp at hs
  simpa using rayInv_fold ro rd md s.objectItems [] (none, md) h0

theorem raycast_none_iff (s : Scene3D) (ro rd : Vector3D) (md : ℚ) :
    s.raycast ro rd md = none ↔
      ∀ q ∈ s.objectItems, ¬ RayHit ro rd md q.2 := by
  have hinv := raycast_rayInv s ro rd md
  constructor
  · intro hn
    exact (hinv.2.1 hn).2
  · intro hq
    rcases hres : s.raycast ro rd md with _ | id_
    · rfl
    · exfalso
      obtain ⟨⟨o, ho, hho, _⟩, _⟩ := hinv.2.2 id_ hres
      exact hq (id_, o) ho hho

theorem raycast_some_spec (s : Scene3D) (ro rd : Vector3D) (md : ℚ)
    (id_ : String) (h : s.raycast ro rd md = some id_) :
    ∃ o, (id_, o) ∈ s.objectItems ∧ RayHit ro rd md o ∧
      ∀ q ∈ s.objectItems, RayHit ro rd md q.2 →
        rayProj ro rd o ≤ rayProj ro rd q.2 := by
  have hinv := raycast_rayInv s ro rd md
  obtain ⟨⟨o, ho, hho, hpo⟩, hmin⟩ := hinv.2.2 id_ h
  refine ⟨o, ho, hho, ?_⟩
  intro q hq hhq
  rw [hpo]
  exact hmin q hq hhq

theorem sceneRay_items :
    sceneRay.objectItems = [("panel", objAt ⟨0, 0, -5⟩)] := by
  simp [sceneRay, Scene3D.add_object, Scene3D.init, Scene3D.getNode, findNode,
    SceneNode.fresh, Scene3D.objectItems, Scene3D.heapObj, insertKey]

/-- C2: the raycast picking contract.  In general: the result is `none`
exactly when no selectable object passes the sphere test in front of the
origin within range, and a returned id always names a passing object of
minimal projection distance.  Concretely: the object at (0, 0, -5) is hit
along direction (0, 0, -1) and missed along (0, 0, 1). -/
theorem raycast_picking_spec :
    (∀ (s : Scene3D) (ro rd : Vector3D) (md : ℚ),
        s.raycast ro rd md = none ↔
          ∀ q ∈ s.objectItems, ¬ RayHit ro rd md q.2) ∧
    (∀ (s : Scene3D) (ro rd : Vector3D) (md : ℚ) (id_ : String),
        s.raycast ro rd md = some id_ →
        ∃ o, (id_, o) ∈ s.objectItems ∧ RayHit ro rd md o ∧
          ∀ q ∈ s.objectItems, RayHit ro rd md q.2 →
            rayProj ro rd o ≤ rayProj ro rd q.2) ∧
    sceneRay.raycast ⟨0, 0, 0⟩ ⟨0, 0, -1⟩ 1000 = some "panel" ∧
    sceneRay.raycast ⟨0, 0, 0⟩ ⟨0, 0, 1⟩ 1000 = none := by
  refine ⟨raycast_none_iff, raycast_some_spec, ?_, ?_⟩
  · show (sceneRay.objectItems.foldl (raycastStep ⟨0, 0, 0⟩ ⟨0, 0, -1⟩)
      (none, 1000)).1 = some "panel"
    rw [sceneRay_items]
    simp only [List.foldl_cons, List.foldl_nil, raycastStep_eq]
    norm_num [rayProj, rayPerpSq, objAt]
  · show (sceneRay.objectItems.foldl (raycastStep ⟨0, 0, 0⟩ ⟨0, 0, 1⟩)
      (none, 1000)).1 = none
    rw [sceneRay_items]
    simp only [List.foldl_cons, List.foldl_nil, raycastStep_eq]
    norm_num [rayProj, rayPerpSq, objAt]

theorem lookupKey_map_value {α β γ : Type} [DecidableEq α] (g : β → γ)
    (l : List (α × β)) (k : α) :
    lookupKey (l.map (fun q => (q.1, g q.2))) k = (lookupKey l k).map g := by
  induction l with
  | nil => rfl
  | cons p ps ih =>
      by_cases h : p.1 = k
      · simp [lookupKey, h]
      · simp [lookupKey, h, ih]

theorem raycastStep_congr (ro rd : Vector3D) (acc : Option String × ℚ)
    (id_ : String) (o o' : SceneObject) (hpos : o'.position = o.position)
    (hsel : o'.selectable = o.selectable) :
    raycastStep ro rd acc (id_, o') = raycastStep ro rd acc (id_, o) := by
  rw [raycastStep_eq, raycastStep_eq]
  simp only [rayProj, rayPerpSq, hpos, hsel]

theorem raycast_mapHeap (g : SceneObject → SceneObject)
    (hg : ∀ o, (g o).position = o.position ∧ (g o).selectable = o.selectable)
    (s : Scene3D) (ro rd : Vector3D) (md : ℚ) :
    (mapHeap g s).raycast ro rd md = s.raycast ro rd md := by
  have hstep : ∀ (acc : Option String × ℚ) (p : String × ℕ),
      raycastStep ro rd acc (p.1, (mapHeap g s).heapObj p.2) =
        raycastStep ro rd acc (p.1, s.heapObj p.2) := by
    intro acc p
    have hl : lookupKey (mapHeap g s).heap p.2 =
        (lookupKey s.heap p.2).map g := by
      simp only [mapHeap]
      exact lookupKey_map_value g s.heap p.2
    rcases hcase : lookupKey s.heap p.2 with _ | o
    · have h1 : (mapHeap g s).heapObj p.2 = default := by
        simp [Scene3D.heapObj, hl, hcase]
      have h2 : s.heapObj p.2 = default := by
        simp [Scene3D.heapObj, hcase]
      rw [h1, h2]
    · have h1 : (mapHeap g s).heapObj p.2 = g o := by
        simp [Scene3D.heapObj, hl, hcase]
      have h2 : s.heapObj p.2 = o := by
        simp [Scene3D.heapObj, hcase]
      rw [h1, h2]
      exact raycastStep_congr ro rd acc p.1 o (g o) (hg o).1 (hg o).2
  show ((mapHeap g s).objectItems.foldl (raycastStep ro rd) (none, md)).1 =
    (s.objectItems.foldl (raycastStep ro rd) (none, md)).1
  have hobjs : (mapHeap g s).objects = s.objects := rfl
  simp only [Scene3D.objectItems, hobjs]
  have hfold : ∀ (l : List (String × ℕ)) (acc : Option String × ℚ),
      (l.map (fun p => (p.1, (mapHeap g s).heapObj p.2))).foldl
          (raycastStep ro rd) acc =
        (l.map (fun p => (p.1, s.heapObj p.2))).foldl (raycastStep ro rd) acc := by
    intro l
    induction l with
    | nil => intro acc; rfl
    | cons p ps ih =>
        intro acc
        simp only [List.map_cons, List.foldl_cons, hstep, ih]
  rw [hfold]

theorem find_objects_near_mem (s : Scene3D) (position : Vector3D)
    (radius : ℚ) (id_ : String) :
    id_ ∈ s.find_objects_near position radius ↔
      ∃ o, (id_, o) ∈ s.objectItems ∧
        (o.position.x - position.x) * (o.position.x - position.x) +
        (o.position.y - position.y) * (o.position.y - position.y) +
        (o.position.z - position.z) * (o.position.z - position.z) ≤
          radius * radius := by
  simp only [Scene3D.find_objects_near, List.mem_map, List.mem_filter]
  constructor
  · rintro ⟨q, ⟨hq, hcond⟩, rfl⟩
    exact ⟨q.2, hq, by simpa using hcond⟩
  · rintro ⟨o, ho, hcond⟩
    exact ⟨(id_, o), ⟨ho, by simpa using hcond⟩, rfl⟩

theorem sceneGhost_items :
    sceneGhost.objectItems = [("ghost", ghostAt ⟨0, 0, -5⟩)] := by
  simp [sceneGhost, Scene3D.add_object, Scene3D.init, Scene3D.getNode,
    findNode, SceneNode.fresh, Scene3D.objectItems, Scene3D.heapObj, insertKey]

/-- C10: visibility does not gate spatial queries or picking — raycast is
unchanged by any rewrite of the stored objects that keeps position and
selectable (in particular by flipping every visible flag), an invisible
but selectable object is returned as a hit, and find_objects_near returns
exactly the ids within the squared-distance bound with no flag filter. -/
theorem visibility_not_gating :
    (∀ (g : SceneObject → SceneObject),
        (∀ o, (g o).position = o.position ∧ (g o).selectable = o.selectable) →
        ∀ (s : Scene3D) (ro rd : Vector3D) (md : ℚ),
          (mapHeap g s).raycast ro rd md = s.raycast ro rd md) ∧
    (∀ (s : Scene3D) (position : Vector3D) (radius : ℚ) (id_ : String),
        id_ ∈ s.find_objects_near position radius ↔
          ∃ o, (id_, o) ∈ s.objectItems ∧
            (o.position.x - position.x) * (o.position.x - position.x) +
            (o.position.y - position.y) * (o.position.y - position.y) +
            (o.position.z - position.z) * (o.position.z - position.z) ≤
              radius * radius) ∧
    sceneGhost.raycast ⟨0, 0, 0⟩ ⟨0, 0, -1⟩ 1000 = some "ghost" := by
  refine ⟨fun g hg s ro rd md => raycast_mapHeap g hg s ro rd md,
    find_objects_near_mem, ?_⟩
  show (sceneGhost.objectItems.foldl (raycastStep ⟨0, 0, 0⟩ ⟨0, 0, -1⟩)
    (none, 1000)).1 = some "ghost"
  rw [sceneGhost_items]
  simp only [List.foldl_cons, List.foldl_nil, raycastStep_eq]
  norm_num [rayProj, rayPerpSq, ghostAt]

/-! ## Further association-list lemmas (for the spatial-grid invariant) -/

theorem lookupKey_cons {α β : Type} [DecidableEq α]
    (p : α × β) (l : List (α × β)) (k : α) :
    lookupKey (p :: l) k = if p.1 = k then some p.2 else lookupKey l k := rfl

theorem insertKey_cons {α β : Type} [DecidableEq α]
    (p : α × β) (l : List (α × β)) (k : α) (v : β) :
    insertKey (p :: l) k v =
      if p.1 = k then (k, v) :: l else p :: insertKey l k v := rfl

theorem eraseKey_cons {α β : Type} [DecidableEq α]
    (p : α × β) (l : List (α × β)) (k : α) :
    eraseKey (p :: l) k = if p.1 = k then l else p :: eraseKey l k := rfl

theorem mem_of_lookupKey_some {α β : Type} [DecidableEq α]
    {l : List (α × β)} {k : α} {v : β} (h : lookupKey l k = some v) :
    (k, v) ∈ l := by
  induction l with
  | nil => simp at h
  | cons p ps ih =>
      rw [lookupKey_cons] at h
      by_cases hp : p.1 = k
      · rw [if_pos hp] at h
        have hv : v = p.2 := by simpa using h.symm
        subst hv
        subst hp
        exact List.mem_cons_self p ps
      · rw [if_neg hp] at h
        exact List.mem_cons_of_mem _ (ih h)

theorem lookupKey_of_mem_nodup {α β : Type} [DecidableEq α]
    {l : List (α × β)} (hn : (l.map Prod.fst).Nodup) {k : α} {v : β}
    (h : (k, v) ∈ l) : lookupKey l k = some v := by
  induction l with
  | nil => simp at h
  | cons p ps ih =>
      rw [List.map_cons, List.nodup_cons] at hn
      rw [lookupKey_cons]
      rcases List.mem_cons.1 h with rfl | hmem
      · rw [if_pos rfl]
      · have hne : p.1 ≠ k := by
          intro he
          exact hn.1 (List.mem_map.2 ⟨(k, v), hmem, he.symm⟩)
        rw [if_neg hne]
        exact ih hn.2 hmem

theorem insertKey_map_fst_of_mem {α β : Type} [DecidableEq α]
    {l : List (α × β)} {k : α} (v : β) (h : k ∈ l.map Prod.fst) :
    (insertKey l k v).map Prod.fst = l.map Prod.fst := by
  induction l with
  | nil => simp at h
  | cons p ps ih =>
      rw [insertKey_cons]
      by_cases hp : p.1 = k
      · rw [if_pos hp]
        simp [hp]
      · have hk : k ∈ ps.map Prod.fst := by
          rcases List.mem_map.1 h with ⟨q, hq, hq1⟩
          rcases List.mem_cons.1 hq with rfl | hmem
          · exact absurd hq1 hp
          · exact List.mem_map.2 ⟨q, hmem, hq1⟩
        rw [if_neg hp]
        simp [ih hk]

theorem mem_insertKey {α β : Type} [DecidableEq α]
    {l : List (α × β)} {k : α} {v : β} {p : α × β}
    (h : p ∈ insertKey l k v) : p ∈ l ∨ p = (k, v) := by
  induction l with
  | nil => simpa [insertKey] using h
  | cons q qs ih =>
      rw [insertKey_cons] at h
      by_cases hq : q.1 = k
      · rw [if_pos hq] at h
        rcases List.mem_cons.1 h with rfl | hmem
        · exact Or.inr rfl
        · exact Or.inl (List.mem_cons_of_mem _ hmem)
      · rw [if_neg hq] at h
        rcases List.mem_cons.1 h with rfl | hmem
        · exact Or.inl (List.mem_cons_self _ _)
        · rcases ih hmem with hl | he
          · exact Or.inl (List.mem_cons_of_mem _ hl)
          · exact Or.inr he

theorem mem_insertKey_nodup {α β : Type} [DecidableEq α]
    {l : List (α × β)} (hn : (l.map Prod.fst).Nodup) {k : α} (v : β)
    (hk : k ∈ l.map Prod.fst) (p : α × β) :
    p ∈ insertKey l k v ↔ p = (k, v) ∨ (p ∈ l ∧ p.1 ≠ k) := by
  induction l with
  | nil => simp at hk
  | cons q qs ih =>
      rw [List.map_cons, List.nodup_cons] at hn
      rw [insertKey_cons]
      by_cases hq : q.1 = k
      · rw [if_pos hq]
        constructor
        · intro hmem
          rcases List.mem_cons.1 hmem with rfl | hmem2
          · exact Or.inl rfl
          · refine Or.inr ⟨List.mem_cons_of_mem _ hmem2, ?_⟩
            intro he
            rw [← hq] at he
            exact hn.1 (List.mem_map.2 ⟨p, hmem2, he⟩)
        · rintro (rfl | ⟨hmem2, hne⟩)
          · exact List.mem_cons_self _ _
          · rcases List.mem_cons.1 hmem2 with rfl | hmem3
            · exact absurd hq hne
            · exact List.mem_cons_of_mem _ hmem3
      · have hk2 : k ∈ qs.map Prod.fst := by
          rcases List.mem_map.1 hk with ⟨q2, hq2, hq21⟩
          rcases List.mem_cons.1 hq2 with rfl | hmem
          · exact absurd hq21 hq
          · exact List.mem_map.2 ⟨q2, hmem, hq21⟩
        rw [if_neg hq, List.mem_cons, ih hn.2 hk2]
        constructor
        · rintro (rfl | h2 | h2)
          · exact Or.inr ⟨List.mem_cons_self _ _, hq⟩
          · exact Or.inl h2
          · exact Or.inr ⟨List.mem_cons_of_mem _ h2.1, h2.2⟩
        · rintro (rfl | ⟨h2, hne⟩)
          · exact Or.inr (Or.inl rfl)
          · rcases List.mem_cons.1 h2 with rfl | h3
            · exact Or.inl rfl
            · exact Or.inr (Or.inr ⟨h3, hne⟩)

theorem lookupKey_insertKey_ne {α β : Type} [DecidableEq α]
    (l : List (α × β)) {k k' : α} (v : β) (h : k' ≠ k) :
    lookupKey (insertKey l k v) k' = lookupKey l k' := by
  induction l with
  | nil => simp [insertKey, lookupKey_cons, Ne.symm h]
  | cons p ps ih =>
      rw [insertKey_cons]
      by_cases hp : p.1 = k
      · rw [if_pos hp, lookupKey_cons, lookupKey_cons,
          if_neg (Ne.symm h), if_neg (hp ▸ fun he => h he.symm)]
      · rw [if_neg hp, lookupKey_cons, lookupKey_cons]
        by_cases hpk : p.1 = k'
        · rw [if_pos hpk, if_pos hpk]
        · rw [if_neg hpk, if_neg hpk, ih]

theorem insertKey_append_right {α β : Type} [DecidableEq α]
    {l : List (α × β)} {k : α} (l2 : List (α × β)) (v : β)
    (h : lookupKey l k = none) :
    insertKey (l ++ l2) k v = l ++ insertKey l2 k v := by
  induction l with
  | nil => rfl
  | cons p ps ih =>
      rw [lookupKey_cons] at h
      by_cases hp : p.1 = k
      · rw [if_pos hp] at h
        simp at h
      · rw [if_neg hp] at h
        rw [List.cons_append, insertKey_cons, if_neg hp, ih h, List.cons_append]

theorem eraseKey_map_fst {α β : Type} [DecidableEq α]
    (l : List (α × β)) (k : α) :
    (eraseKey l k).map Prod.fst = (l.map Prod.fst).erase k := by
  induction l with
  | nil => rfl
  | cons p ps ih =>
      rw [eraseKey_cons]
      by_cases hp : p.1 = k
      · rw [if_pos hp]
        simp [hp, List.erase_cons_head]
      · rw [if_neg hp]
        rw [List.map_cons, List.map_cons, List.erase_cons_tail, ih]
        simp [hp]

theorem mem_eraseKey_nodup {α β : Type} [DecidableEq α]
    {l : List (α × β)} (hn : (l.map Prod.fst).Nodup) (k : α) (p : α × β) :
    p ∈ eraseKey l k ↔ p ∈ l ∧ p.1 ≠ k := by
  induction l with
  | nil => simp [eraseKey]
  | cons q qs ih =>
      rw [List.map_cons, List.nodup_cons] at hn
      rw [eraseKey_cons]
      by_cases hq : q.1 = k
      · rw [if_pos hq]
        constructor
        · intro hmem
          refine ⟨List.mem_cons_of_mem _ hmem, ?_⟩
          intro he
          rw [← hq] at he
          exact hn.1 (List.mem_map.2 ⟨p, hmem, he⟩)
        · rintro ⟨hmem, hne⟩
          rcases List.mem_cons.1 hmem with rfl | h2
          · exact absurd hq hne
          · exact h2
      · rw [if_neg hq, List.mem_cons, ih hn.2]
        constructor
        · rintro (rfl | ⟨h2, hne⟩)
          · exact ⟨List.mem_cons_self _ _, hq⟩
          · exact ⟨List.mem_cons_of_mem _ h2, hne⟩
        · rintro ⟨hmem, hne⟩
          rcases List.mem_cons.1 hmem with rfl | h2
          · exact Or.inl rfl
          · exact Or.inr ⟨h2, hne⟩

/-! ## Grid occurrence lemmas -/

theorem gridOccur_nil (id_ : String) : gridOccur [] id_ = 0 := rfl

theorem gridOccur_cons (b : (ℤ × ℤ × ℤ) × List String)
    (bs : List ((ℤ × ℤ × ℤ) × List String)) (id_ : String) :
    gridOccur (b :: bs) id_ = b.2.count id_ + gridOccur bs id_ := by
  simp [gridOccur]

theorem gridOccur_eq_zero {g : List ((ℤ × ℤ × ℤ) × List String)}
    {id_ : String} (h : ∀ b ∈ g, id_ ∉ b.2) : gridOccur g id_ = 0 := by
  induction g with
  | nil => rfl
  | cons b bs ih =>
      rw [gridOccur_cons, List.count_eq_zero.2 (h b (List.mem_cons_self b bs)),
        ih (fun b2 hb2 => h b2 (List.mem_cons_of_mem _ hb2))]

theorem gridOccur_eq_one {g : List ((ℤ × ℤ × ℤ) × List String)}
    {id_ : String} {key : ℤ × ℤ × ℤ}
    (hkeys : (g.map Prod.fst).Nodup)
    (hbuckets : ∀ b ∈ g, b.2.Nodup)
    (hmem : ∀ b ∈ g, id_ ∈ b.2 ↔ b.1 = key)
    (hex : ∃ b ∈ g, b.1 = key) :
    gridOccur g id_ = 1 := by
  induction g with
  | nil => simp at hex
  | cons b bs ih =>
      rw [List.map_cons, List.nodup_cons] at hkeys
      rw [gridOccur_cons]
      by_cases hb : b.1 = key
      · have hidin : id_ ∈ b.2 := (hmem b (List.mem_cons_self _ _)).2 hb
        rw [List.count_eq_one_of_mem (hbuckets b (List.mem_cons_self _ _)) hidin]
        have hz : gridOccur bs id_ = 0 := by
          apply gridOccur_eq_zero
          intro b2 hb2 hin
          have hk2 : b2.1 = key := (hmem b2 (List.mem_cons_of_mem _ hb2)).1 hin
          exact hkeys.1 (List.mem_map.2 ⟨b2, hb2, hk2.trans hb.symm⟩)
        rw [hz]
      · have hnotin : id_ ∉ b.2 := fun hin =>
          hb ((hmem b (List.mem_cons_self _ _)).1 hin)
        rw [List.count_eq_zero.2 hnotin]
        have hex2 : ∃ b2 ∈ bs, b2.1 = key := by
          rcases hex with ⟨b2, hb2, hk2⟩
          rcases List.mem_cons.1 hb2 with rfl | hmem2
          · exact absurd hk2 hb
          · exact ⟨b2, hmem2, hk2⟩
        rw [ih hkeys.2 (fun b2 hb2 => hbuckets b2 (List.mem_cons_of_mem _ hb2))
          (fun b2 hb2 => hmem b2 (List.mem_cons_of_mem _ hb2)) hex2]

theorem lookupKey_append_single_ne {α β : Type} [DecidableEq α]
    (l : List (α × β)) {k k' : α} (v : β) (h : k' ≠ k) :
    lookupKey (l ++ [(k, v)]) k' = lookupKey l k' := by
  rw [lookupKey_append]
  rcases lookupKey l k' with _ | w
  · simp [lookupKey_cons, Ne.symm h]
  · rfl

theorem lookupKey_none_of_lt {β : Type} {l : List (ℕ × β)} {r : ℕ}
    (h : ∀ q ∈ l, q.1 < r) : lookupKey l r = none := by
  rw [lookupKey_eq_none]
  intro hmem
  rcases List.mem_map.1 hmem with ⟨q, hq, hq1⟩
  exact absurd (hq1 ▸ h q hq) (lt_irrefl r)

theorem update_spatial_index_grid_eq (s : Scene3D) (id_ : String)
    (obj : SceneObject)
    (horphan : ∀ b ∈ s.spatial_grid, id_ ∉ b.2) :
    (s.update_spatial_index id_ obj).spatial_grid =
      match lookupKey s.spatial_grid (gridKeyOf s.grid_size obj.position) with
      | none => s.spatial_grid ++ [(gridKeyOf s.grid_size obj.position, [id_])]
      | some bucket =>
          insertKey s.spatial_grid (gridKeyOf s.grid_size obj.position)
            (bucket ++ [id_]) := by
  rcases hk : lookupKey s.spatial_grid (gridKeyOf s.grid_size obj.position)
    with _ | bucket
  · have hl2 : lookupKey
        (s.spatial_grid ++ [(gridKeyOf s.grid_size obj.position, [])])
        (gridKeyOf s.grid_size obj.position) = some [] := by
      rw [lookupKey_append, hk, lookupKey_cons, if_pos rfl]
    simp only [Scene3D.update_spatial_index, hk, Option.isSome_none,
      Bool.false_eq_true, if_false, hl2, Option.getD_some, List.not_mem_nil,
      ite_false, List.nil_append]
    rw [insertKey_append_right _ _ hk, insertKey_cons, if_pos rfl]
  · have hnot : id_ ∉ bucket := horphan _ (mem_of_lookupKey_some hk)
    simp only [Scene3D.update_spatial_index, hk, Option.isSome_some, if_true,
      Option.getD_some, hnot, ite_false]

theorem remove_from_spatial_index_grid_eq (s : Scene3D) (id_ : String)
    (obj : SceneObject) {bucket : List String}
    (hk : lookupKey s.spatial_grid (gridKeyOf s.grid_size obj.position) =
      some bucket)
    (hmem : id_ ∈ bucket) :
    (s.remove_from_spatial_index id_ obj).spatial_grid =
      if bucket.erase id_ = [] then
        eraseKey s.spatial_grid (gridKeyOf s.grid_size obj.position)
      else
        insertKey s.spatial_grid (gridKeyOf s.grid_size obj.position)
          (bucket.erase id_) := by
  simp only [Scene3D.remove_from_spatial_index, hk, if_pos hmem]
  split <;> rfl

theorem goodScene_add_core (s : Scene3D) (id_ : String) (obj : SceneObject)
    (hg : GoodScene s) (hfresh : lookupKey s.objects id_ = none) :
    GoodScene (Scene3D.update_spatial_index
      { s with
        root_node := mapNode "root"
          (SceneNode.withObjects (insertKey · id_ s.next_ref)) s.root_node
        objects := insertKey s.objects id_ s.next_ref
        heap := s.heap ++ [(s.next_ref, obj)]
        next_ref := s.next_ref + 1 } id_ obj) := by
  have hins : insertKey s.objects id_ s.next_ref =
      s.objects ++ [(id_, s.next_ref)] := insertKey_of_lookup_none _ hfresh
  have hid_not : id_ ∉ s.objects.map Prod.fst := lookupKey_eq_none.1 hfresh
  have href_not : s.next_ref ∉ s.objects.map Prod.snd := by
    intro hmem
    rcases List.mem_map.1 hmem with ⟨p, hp, hp2⟩
    exact absurd (hp2 ▸ hg.refs_lt p hp) (lt_irrefl _)
  have hheap_none : lookupKey s.heap s.next_ref = none :=
    lookupKey_none_of_lt hg.heap_keys_lt
  -- the heap after adding, dereferenced
  have hHnew : ∀ (t : Scene3D), t.heap = s.heap ++ [(s.next_ref, obj)] →
      t.heapObj s.next_ref = obj := by
    intro t ht
    simp [Scene3D.heapObj, ht, lookupKey_append, hheap_none, lookupKey_cons]
  have hHold : ∀ (t : Scene3D), t.heap = s.heap ++ [(s.next_ref, obj)] →
      ∀ p ∈ s.objects, t.heapObj p.2 = s.heapObj p.2 := by
    intro t ht p hp
    have hne : p.2 ≠ s.next_ref := ne_of_lt (hg.refs_lt p hp)
    simp [Scene3D.heapObj, ht, lookupKey_append_single_ne _ _ hne]
  set S1 : Scene3D :=
    { s with
      root_node := mapNode "root"
        (SceneNode.withObjects (insertKey · id_ s.next_ref)) s.root_node
      objects := insertKey s.objects id_ s.next_ref
      heap := s.heap ++ [(s.next_ref, obj)]
      next_ref := s.next_ref + 1 } with hS1
  set S2 := S1.update_spatial_index id_ obj with hS2
  have hobj2 : S2.objects = s.objects ++ [(id_, s.next_ref)] := by
    rw [hS2, update_spatial_index_objects, hS1, hins]
  have hheap2 : S2.heap = s.heap ++ [(s.next_ref, obj)] := by
    rw [hS2, update_spatial_index_heap]
  have hnr2 : S2.next_ref = s.next_ref + 1 := by
    rw [hS2, update_spatial_index_next_ref]
  have hnames2 : S2.node_names = s.node_names := by
    rw [hS2, update_spatial_index_node_names]
  have hgsz2 : S2.grid_size = s.grid_size := by
    rw [hS2, update_spatial_index_grid_size]
  have hroot2 : S2.root_node = SceneNode.mk "root" ⟨0, 0, 0⟩ ⟨0, 0, 0⟩
      ⟨1, 1, 1⟩ true (insertKey s.objects id_ s.next_ref) [] := by
    rw [hS2, update_spatial_index_root, hS1]
    show mapNode "root" _ s.root_node = _
    rw [hg.root_eq, mapNode, if_pos rfl, SceneNode.withObjects]
  have key := gridKeyOf s.grid_size obj.position
  have horphan : ∀ b ∈ S1.spatial_grid, id_ ∉ b.2 := by
    intro b hb
    exact hg.grid_orphan id_ hfresh b hb
  have hgrid2 : S2.spatial_grid =
      match lookupKey s.spatial_grid (gridKeyOf s.grid_size obj.position) with
      | none => s.spatial_grid ++ [(gridKeyOf s.grid_size obj.position, [id_])]
      | some bucket =>
          insertKey s.spatial_grid (gridKeyOf s.grid_size obj.position)
            (bucket ++ [id_]) := by
    rw [hS2]
    exact update_spatial_index_grid_eq S1 id_ obj horphan
  -- per-object grid keys after the add
  have hkeyold : ∀ p ∈ s.objects,
      gridKeyOf S2.grid_size (S2.heapObj p.2).position =
        gridKeyOf s.grid_size (s.heapObj p.2).position := by
    intro p hp
    rw [hgsz2, hHold S2 hheap2 p hp]
  have hkeynew : gridKeyOf S2.grid_size (S2.heapObj s.next_ref).position =
      gridKeyOf s.grid_size obj.position := by
    rw [hgsz2, hHnew S2 hheap2]
  refine ⟨?_, ?_, ?_, ?_, ?_, ?_, ?_, ?_, ?_, ?_, ?_⟩
  · -- keys_nodup
    rw [hobj2]
    simp only [List.map_append, List.map_cons, List.map_nil]
    rw [List.nodup_append]
    exact ⟨hg.keys_nodup, List.nodup_singleton _,
      by simpa using fun hmem => hid_not hmem⟩
  · -- refs_nodup
    rw [hobj2]
    simp only [List.map_append, List.map_cons, List.map_nil]
    rw [List.nodup_append]
    exact ⟨hg.refs_nodup, List.nodup_singleton _,
      by simpa using fun hmem => href_not hmem⟩
  · -- heap_keys_lt
    intro q hq
    rw [hheap2] at hq
    rw [hnr2]
    rcases List.mem_append.1 hq with hmem | hmem
    · exact lt_trans (hg.heap_keys_lt q hmem) (Nat.lt_succ_self _)
    · rw [List.mem_singleton.1 hmem]
      exact Nat.lt_succ_self _
  · -- refs_lt
    intro p hp
    rw [hobj2] at hp
    rw [hnr2]
    rcases List.mem_append.1 hp with hmem | hmem
    · exact lt_trans (hg.refs_lt p hmem) (Nat.lt_succ_self _)
    · rw [List.mem_singleton.1 hmem]
      exact Nat.lt_succ_self _
  · -- grid_keys_nodup
    rw [hgrid2]
    rcases hk : lookupKey s.spatial_grid (gridKeyOf s.grid_size obj.position)
      with _ | bucket
    · simp only [List.map_append, List.map_cons, List.map_nil]
      rw [List.nodup_append]
      refine ⟨hg.grid_keys_nodup, List.nodup_singleton _, ?_⟩
      intro x hx hx2
      rw [List.mem_singleton.1 hx2] at hx
      exact lookupKey_eq_none.1 hk hx
    · rw [insertKey_map_fst_of_mem _
        (List.mem_map.2 ⟨_, mem_of_lookupKey_some hk, rfl⟩)]
      exact hg.grid_keys_nodup
  · -- buckets_nodup
    intro b hb
    rw [hgrid2] at hb
    rcases hk : lookupKey s.spatial_grid (gridKeyOf s.grid_size obj.position)
      with _ | bucket
    · rw [hk] at hb
      rcases List.mem_append.1 hb with hmem | hmem
      · exact hg.buckets_nodup b hmem
      · rw [List.mem_singleton.1 hmem]
        exact List.nodup_singleton _
    · rw [hk] at hb
      rcases mem_insertKey hb with hmem | he
      · exact hg.buckets_nodup b hmem
      · rw [he]
        rw [List.nodup_append]
        refine ⟨hg.buckets_nodup _ (mem_of_lookupKey_some hk),
          List.nodup_singleton _, ?_⟩
        simp only [List.disjoint_singleton]
        exact hg.grid_orphan id_ hfresh _ (mem_of_lookupKey_some hk)
  · -- grid_mem
    intro p hp b hb
    rw [hgrid2] at hb
    rw [hobj2] at hp
    rcases hk : lookupKey s.spatial_grid (gridKeyOf s.grid_size obj.position)
      with _ | bucket
    all_goals rw [hk] at hb
    · -- appended fresh cell
      rcases List.mem_append.1 hp with hpold | hpnew
      · rw [hkeyold p hpold]
        rcases List.mem_append.1 hb with hbold | hbnew
        · exact hg.grid_mem p hpold b hbold
        · rw [List.mem_singleton.1 hbnew]
          constructor
          · intro hin
            have : p.1 = id_ := by simpa using hin
            exact absurd (List.mem_map.2 ⟨p, hpold, this⟩) hid_not
          · intro hkey
            exfalso
            obtain ⟨b0, hb0, hb0k⟩ := hg.grid_hit p hpold
            have : (gridKeyOf s.grid_size obj.position) ∈
                s.spatial_grid.map Prod.fst :=
              List.mem_map.2 ⟨b0, hb0, by rw [hb0k, ← hkey]⟩
            exact absurd this (lookupKey_eq_none.1 hk)
      · have hpe := List.mem_singleton.1 hpnew
        subst hpe
        show id_ ∈ b.2 ↔
          b.1 = gridKeyOf S2.grid_size (S2.heapObj s.next_ref).position
        rw [hkeynew]
        rcases List.mem_append.1 hb with hbold | hbnew
        · constructor
          · intro hin
            exact absurd hin (hg.grid_orphan id_ hfresh b hbold)
          · intro hkey
            exfalso
            have : (gridKeyOf s.grid_size obj.position) ∈
                s.spatial_grid.map Prod.fst :=
              List.mem_map.2 ⟨b, hbold, hkey⟩
            exact absurd this (lookupKey_eq_none.1 hk)
        · rw [List.mem_singleton.1 hbnew]
          simp
    · -- existing cell extended
      have hbmem := mem_of_lookupKey_some hk
      have hkmem : (gridKeyOf s.grid_size obj.position) ∈
          s.spatial_grid.map Prod.fst := List.mem_map.2 ⟨_, hbmem, rfl⟩
      rw [mem_insertKey_nodup hg.grid_keys_nodup _ hkmem] at hb
      rcases List.mem_append.1 hp with hpold | hpnew
      · rw [hkeyold p hpold]
        rcases hb with he | ⟨hbold, hbne⟩
        · rw [he]
          simp only
          constructor
          · intro hin
            rcases List.mem_append.1 hin with hinb | hinid
            · exact (hg.grid_mem p hpold _ hbmem).1 hinb
            · have : p.1 = id_ := by simpa using hinid
              exact absurd (List.mem_map.2 ⟨p, hpold, this⟩) hid_not
          · intro hkey
            exact List.mem_append_left _
              ((hg.grid_mem p hpold _ hbmem).2 hkey)
        · exact hg.grid_mem p hpold b hbold
      · have hpe := List.mem_singleton.1 hpnew
        subst hpe
        show id_ ∈ b.2 ↔
          b.1 = gridKeyOf S2.grid_size (S2.heapObj s.next_ref).position
        rw [hkeynew]
        rcases hb with he | ⟨hbold, hbne⟩
        · rw [he]
          simp
        · constructor
          · intro hin
            exact absurd hin (hg.grid_orphan id_ hfresh b hbold)
          · intro hkey
            exact absurd hkey hbne
  · -- grid_hit
    intro p hp
    rw [hgrid2]
    rw [hobj2] at hp
    rcases hk : lookupKey s.spatial_grid (gridKeyOf s.grid_size obj.position)
      with _ | bucket
    · rcases List.mem_append.1 hp with hpold | hpnew
      · obtain ⟨b0, hb0, hb0k⟩ := hg.grid_hit p hpold
        exact ⟨b0, List.mem_append_left _ hb0, by rw [hb0k, hkeyold p hpold]⟩
      · have hpe := List.mem_singleton.1 hpnew
        subst hpe
        refine ⟨(gridKeyOf s.grid_size obj.position, [id_]), ?_, ?_⟩
        · exact List.mem_append_right _ (List.mem_singleton.2 rfl)
        · show gridKeyOf s.grid_size obj.position =
            gridKeyOf S2.grid_size (S2.heapObj s.next_ref).position
          rw [hkeynew]
    · have hbmem := mem_of_lookupKey_some hk
      have hkmem : (gridKeyOf s.grid_size obj.position) ∈
          s.spatial_grid.map Prod.fst := List.mem_map.2 ⟨_, hbmem, rfl⟩
      rcases List.mem_append.1 hp with hpold | hpnew
      · obtain ⟨b0, hb0, hb0k⟩ := hg.grid_hit p hpold
        by_cases hb0key : b0.1 = gridKeyOf s.grid_size obj.position
        · refine ⟨(gridKeyOf s.grid_size obj.position, bucket ++ [id_]), ?_, ?_⟩
          · rw [mem_insertKey_nodup hg.grid_keys_nodup _ hkmem]
            exact Or.inl rfl
          · simp only
            rw [← hb0key, hb0k, hkeyold p hpold]
        · refine ⟨b0, ?_, by rw [hb0k, hkeyold p hpold]⟩
          rw [mem_insertKey_nodup hg.grid_keys_nodup _ hkmem]
          exact Or.inr ⟨hb0, hb0key⟩
      · have hpe := List.mem_singleton.1 hpnew
        subst hpe
        refine ⟨(gridKeyOf s.grid_size obj.position, bucket ++ [id_]), ?_, ?_⟩
        · rw [mem_insertKey_nodup hg.grid_keys_nodup _ hkmem]
          exact Or.inl rfl
        · show gridKeyOf s.grid_size obj.position =
            gridKeyOf S2.grid_size (S2.heapObj s.next_ref).position
          rw [hkeynew]
  · -- grid_orphan
    intro id2 hid2 b hb
    rw [hobj2] at hid2
    rw [hgrid2] at hb
    have hid2old : lookupKey s.objects id2 = none := by
      rw [lookupKey_append] at hid2
      rcases hcase : lookupKey s.objects id2 with _ | v
      · rfl
      · rw [hcase] at hid2
        simp at hid2
    have hid2ne : id2 ≠ id_ := by
      intro he
      rw [lookupKey_append, hid2old, he, lookupKey_cons, if_pos rfl] at hid2
      simp at hid2
    rcases hk : lookupKey s.spatial_grid (gridKeyOf s.grid_size obj.position)
      with _ | bucket
    all_goals rw [hk] at hb
    · rcases List.mem_append.1 hb with hbold | hbnew
      · exact hg.grid_orphan id2 hid2old b hbold
      · rw [List.mem_singleton.1 hbnew]
        simpa using hid2ne
    · have hbmem := mem_of_lookupKey_some hk
      have hkmem : (gridKeyOf s.grid_size obj.position) ∈
          s.spatial_grid.map Prod.fst := List.mem_map.2 ⟨_, hbmem, rfl⟩
      rw [mem_insertKey_nodup hg.grid_keys_nodup _ hkmem] at hb
      rcases hb with he | ⟨hbold, _⟩
      · rw [he]
        simp only
        intro hin
        rcases List.mem_append.1 hin with hinb | hinid
        · exact hg.grid_orphan id2 hid2old _ hbmem hinb
        · exact hid2ne (by simpa using hinid)
      · exact hg.grid_orphan id2 hid2old b hbold
  · -- root_eq
    rw [hroot2, hS2, update_spatial_index_objects, hS1]
  · -- names_eq
    rw [hnames2, hg.names_eq]

theorem goodScene_add (s : Scene3D) (id_ : String) (obj : SceneObject)
    (nn : String) (hg : GoodScene s)
    (hfresh : lookupKey s.objects id_ = none) :
    GoodScene (s.add_object id_ obj nn).2 := by
  by_cases hnn : nn ∈ s.node_names
  · have hroot : nn = "root" := by
      rw [hg.names_eq] at hnn
      simpa using hnn
    subst hroot
    have hfind : s.getNode "root" = some (SceneNode.mk "root" ⟨0, 0, 0⟩
        ⟨0, 0, 0⟩ ⟨1, 1, 1⟩ true s.objects []) := by
      simp [Scene3D.getNode, hg.names_eq, hg.root_eq, findNode]
    simp only [Scene3D.add_object, hfind]
    exact goodScene_add_core s id_ obj hg hfresh
  · have hnone : s.getNode nn = none := by
      rw [Scene3D.getNode, if_neg hnn]
    simp only [Scene3D.add_object, hnone]
    exact hg

theorem eraseKey_sublist {α β : Type} [DecidableEq α]
    (l : List (α × β)) (k : α) : (eraseKey l k).Sublist l := by
  induction l with
  | nil => exact List.Sublist.refl _
  | cons p ps ih =>
      rw [eraseKey_cons]
      by_cases hp : p.1 = k
      · rw [if_pos hp]
        exact List.sublist_cons_self p ps
      · rw [if_neg hp]
        exact List.Sublist.cons₂ p ih

theorem lookupKey_eraseKey_ne {α β : Type} [DecidableEq α]
    (l : List (α × β)) {k k2 : α} (h : k2 ≠ k) :
    lookupKey (eraseKey l k) k2 = lookupKey l k2 := by
  induction l with
  | nil => rfl
  | cons p ps ih =>
      rw [eraseKey_cons]
      by_cases hp : p.1 = k
      · rw [if_pos hp, lookupKey_cons, if_neg (hp ▸ fun he => h he.symm)]
      · rw [if_neg hp, lookupKey_cons, lookupKey_cons]
        by_cases hpk : p.1 = k2
        · rw [if_pos hpk, if_pos hpk]
        · rw [if_neg hpk, if_neg hpk, ih]

theorem lookupKey_eraseKey_self {α β : Type} [DecidableEq α]
    {l : List (α × β)} (hn : (l.map Prod.fst).Nodup) (k : α) :
    lookupKey (eraseKey l k) k = none := by
  rw [lookupKey_eq_none, eraseKey_map_fst]
  exact hn.not_mem_erase

theorem grid_facts_after_remove (s : Scene3D) (id_ : String) (r : ℕ)
    (hg : GoodScene s) (hlook : lookupKey s.objects id_ = some r)
    (g' : List ((ℤ × ℤ × ℤ) × List String))
    (hgdef : g' = (s.remove_from_spatial_index id_ (s.heapObj r)).spatial_grid) :
    (g'.map Prod.fst).Nodup ∧
    (∀ b ∈ g', b.2.Nodup) ∧
    (∀ b ∈ g', id_ ∉ b.2) ∧
    (∀ p ∈ s.objects, p.1 ≠ id_ →
      (∀ b ∈ g',
        (p.1 ∈ b.2 ↔ b.1 = gridKeyOf s.grid_size (s.heapObj p.2).position)) ∧
      (∃ b ∈ g', b.1 = gridKeyOf s.grid_size (s.heapObj p.2).position)) ∧
    (∀ id2, lookupKey s.objects id2 = none → ∀ b ∈ g', id2 ∉ b.2) := by
  have hmem : (id_, r) ∈ s.objects := mem_of_lookupKey_some hlook
  obtain ⟨b0, hb0, hb0k⟩ := hg.grid_hit (id_, r) hmem
  have hb0mem : ((gridKeyOf s.grid_size (s.heapObj r).position, b0.2) :
      (ℤ × ℤ × ℤ) × List String) ∈ s.spatial_grid := by
    rw [← hb0k]
    exact hb0
  have hlookg : lookupKey s.spatial_grid
      (gridKeyOf s.grid_size (s.heapObj r).position) = some b0.2 :=
    lookupKey_of_mem_nodup hg.grid_keys_nodup hb0mem
  have hidb0 : id_ ∈ b0.2 := (hg.grid_mem (id_, r) hmem b0 hb0).2 hb0k
  have hb0nodup : b0.2.Nodup := hg.buckets_nodup b0 hb0
  have hkmem : (gridKeyOf s.grid_size (s.heapObj r).position) ∈
      s.spatial_grid.map Prod.fst := List.mem_map.2 ⟨_, hb0mem, rfl⟩
  rw [remove_from_spatial_index_grid_eq s id_ (s.heapObj r) hlookg hidb0]
    at hgdef
  by_cases hempty : b0.2.erase id_ = []
  · rw [if_pos hempty] at hgdef
    subst hgdef
    have hmemg : ∀ b, b ∈ eraseKey s.spatial_grid
        (gridKeyOf s.grid_size (s.heapObj r).position) ↔
        b ∈ s.spatial_grid ∧
          b.1 ≠ gridKeyOf s.grid_size (s.heapObj r).position :=
      mem_eraseKey_nodup hg.grid_keys_nodup _
    refine ⟨?_, ?_, ?_, ?_, ?_⟩
    · exact List.Nodup.sublist
        ((eraseKey_sublist s.spatial_grid _).map Prod.fst) hg.grid_keys_nodup
    · intro b hb
      exact hg.buckets_nodup b ((hmemg b).1 hb).1
    · intro b hb
      obtain ⟨hbg, hbne⟩ := (hmemg b).1 hb
      intro hin
      exact hbne ((hg.grid_mem (id_, r) hmem b hbg).1 hin)
    · intro p hp hpne
      constructor
      · intro b hb
        exact hg.grid_mem p hp b ((hmemg b).1 hb).1
      · obtain ⟨b1, hb1, hb1k⟩ := hg.grid_hit p hp
        refine ⟨b1, (hmemg b1).2 ⟨hb1, ?_⟩, hb1k⟩
        intro hsame
        have hpin : p.1 ∈ b1.2 := (hg.grid_mem p hp b1 hb1).2 hb1k
        have hb1pair : ((gridKeyOf s.grid_size (s.heapObj r).position, b1.2) :
            (ℤ × ℤ × ℤ) × List String) ∈ s.spatial_grid := by
          rw [← hsame]
          exact hb1
        have hlb1 := lookupKey_of_mem_nodup hg.grid_keys_nodup hb1pair
        rw [hlookg] at hlb1
        have hbb : b1.2 = b0.2 := by simpa using hlb1.symm
        rw [hbb] at hpin
        have hpe : p.1 ∈ b0.2.erase id_ := (List.mem_erase_of_ne hpne).2 hpin
        rw [hempty] at hpe
        simp at hpe
    · intro id2 hid2 b hb
      exact hg.grid_orphan id2 hid2 b ((hmemg b).1 hb).1
  · rw [if_neg hempty] at hgdef
    subst hgdef
    have hmemg : ∀ b, b ∈ insertKey s.spatial_grid
        (gridKeyOf s.grid_size (s.heapObj r).position) (b0.2.erase id_) ↔
        b = (gridKeyOf s.grid_size (s.heapObj r).position, b0.2.erase id_) ∨
          (b ∈ s.spatial_grid ∧
            b.1 ≠ gridKeyOf s.grid_size (s.heapObj r).position) :=
      mem_insertKey_nodup hg.grid_keys_nodup _ hkmem
    refine ⟨?_, ?_, ?_, ?_, ?_⟩
    · rw [insertKey_map_fst_of_mem _ hkmem]
      exact hg.grid_keys_nodup
    · intro b hb
      rcases (hmemg b).1 hb with he | ⟨hbg, _⟩
      · rw [he]
        exact hb0nodup.erase _
      · exact hg.buckets_nodup b hbg
    · intro b hb
      rcases (hmemg b).1 hb with he | ⟨hbg, hbne⟩
      · rw [he]
        exact hb0nodup.not_mem_erase
      · intro hin
        exact hbne ((hg.grid_mem (id_, r) hmem b hbg).1 hin)
    · intro p hp hpne
      constructor
      · intro b hb
        rcases (hmemg b).1 hb with he | ⟨hbg, _⟩
        · rw [he]
          show p.1 ∈ b0.2.erase id_ ↔ _
          rw [List.mem_erase_of_ne hpne]
          exact hg.grid_mem p hp _ hb0mem
        · exact hg.grid_mem p hp b hbg
      · obtain ⟨b1, hb1, hb1k⟩ := hg.grid_hit p hp
        by_cases hsame : b1.1 = gridKeyOf s.grid_size (s.heapObj r).position
        · refine ⟨(gridKeyOf s.grid_size (s.heapObj r).position,
            b0.2.erase id_), (hmemg _).2 (Or.inl rfl), ?_⟩
          show gridKeyOf s.grid_size (s.heapObj r).position = _
          rw [← hsame, hb1k]
        · exact ⟨b1, (hmemg b1).2 (Or.inr ⟨hb1, hsame⟩), hb1k⟩
    · intro id2 hid2 b hb
      rcases (hmemg b).1 hb with he | ⟨hbg, _⟩
      · rw [he]
        show id2 ∉ b0.2.erase id_
        intro hin
        exact hg.grid_orphan id2 hid2 _ hb0mem (List.mem_of_mem_erase hin)
      · exact hg.grid_orphan id2 hid2 b hbg

theorem goodScene_remove (s : Scene3D) (id_ : String) (hg : GoodScene s) :
    GoodScene (s.remove_object id_).2 := by
  rcases hlook : lookupKey s.objects id_ with _ | r
  · simp only [Scene3D.remove_object, hlook]
    exact hg
  · have hget : (s.remove_from_spatial_index id_ (s.heapObj r)).getNode "root" =
        some (SceneNode.mk "root" ⟨0, 0, 0⟩ ⟨0, 0, 0⟩ ⟨1, 1, 1⟩ true
          s.objects []) := by
      simp [Scene3D.getNode, remove_from_spatial_index_node_names,
        hg.names_eq, remove_from_spatial_index_root, hg.root_eq, findNode]
    have hroot3 : removeObjFirstNode
        (s.remove_from_spatial_index id_ (s.heapObj r)).node_names id_
        (s.remove_from_spatial_index id_ (s.heapObj r)) =
        SceneNode.mk "root" ⟨0, 0, 0⟩ ⟨0, 0, 0⟩ ⟨1, 1, 1⟩ true
          (eraseKey s.objects id_) [] := by
      rw [remove_from_spatial_index_node_names, hg.names_eq]
      simp [removeObjFirstNode, hget, SceneNode.objects, hlook,
        remove_from_spatial_index_root, hg.root_eq, mapNode,
        SceneNode.withObjects]
    have hTobj : (s.remove_object id_).2.objects = eraseKey s.objects id_ := by
      simp only [Scene3D.remove_object, hlook, remove_from_spatial_index_objects]
    have hTheap : (s.remove_object id_).2.heap = s.heap := by
      simp only [Scene3D.remove_object, hlook, remove_from_spatial_index_heap]
    have hTnr : (s.remove_object id_).2.next_ref = s.next_ref := by
      simp only [Scene3D.remove_object, hlook, remove_from_spatial_index_next_ref]
    have hTnames : (s.remove_object id_).2.node_names = s.node_names := by
      simp only [Scene3D.remove_object, hlook,
        remove_from_spatial_index_node_names]
    have hTgrid : (s.remove_object id_).2.spatial_grid =
        (s.remove_from_spatial_index id_ (s.heapObj r)).spatial_grid := by
      simp only [Scene3D.remove_object, hlook]
    have hTgsz : (s.remove_object id_).2.grid_size = s.grid_size := by
      simp only [Scene3D.remove_object, hlook,
        remove_from_spatial_index_grid_size]
    have hTroot : (s.remove_object id_).2.root_node =
        SceneNode.mk "root" ⟨0, 0, 0⟩ ⟨0, 0, 0⟩ ⟨1, 1, 1⟩ true
          (eraseKey s.objects id_) [] := by
      simp only [Scene3D.remove_object, hlook]
      exact hroot3
    have hTheapObj : ∀ x, (s.remove_object id_).2.heapObj x = s.heapObj x := by
      intro x
      simp only [Scene3D.heapObj, hTheap]
    obtain ⟨hgk, hgb, hgid, hgp, hgorph⟩ :=
      grid_facts_after_remove s id_ r hg hlook
        (s.remove_from_spatial_index id_ (s.heapObj r)).spatial_grid rfl
    have hmemT : ∀ p, p ∈ (s.remove_object id_).2.objects ↔
        p ∈ s.objects ∧ p.1 ≠ id_ := by
      intro p
      rw [hTobj]
      exact mem_eraseKey_nodup hg.keys_nodup id_ p
    refine ⟨?_, ?_, ?_, ?_, ?_, ?_, ?_, ?_, ?_, ?_, ?_⟩
    · rw [hTobj]
      exact List.Nodup.sublist ((eraseKey_sublist s.objects id_).map Prod.fst)
        hg.keys_nodup
    · rw [hTobj]
      exact List.Nodup.sublist ((eraseKey_sublist s.objects id_).map Prod.snd)
        hg.refs_nodup
    · intro q hq
      rw [hTheap] at hq
      rw [hTnr]
      exact hg.heap_keys_lt q hq
    · intro p hp
      rw [hTnr]
      exact hg.refs_lt p ((hmemT p).1 hp).1
    · rw [hTgrid]
      exact hgk
    · intro b hb
      rw [hTgrid] at hb
      exact hgb b hb
    · intro p hp b hb
      rw [hTgrid] at hb
      obtain ⟨hpold, hpne⟩ := (hmemT p).1 hp
      rw [hTgsz, hTheapObj]
      exact (hgp p hpold hpne).1 b hb
    · intro p hp
      obtain ⟨hpold, hpne⟩ := (hmemT p).1 hp
      rw [hTgrid, hTgsz, hTheapObj]
      exact (hgp p hpold hpne).2
    · intro id2 hid2 b hb
      rw [hTgrid] at hb
      rw [hTobj] at hid2
      by_cases he : id2 = id_
      · subst he
        exact hgid b hb
      · rw [lookupKey_eraseKey_ne _ he] at hid2
        exact hgorph id2 hid2 b hb
    · rw [hTroot, hTobj]
    · rw [hTnames, hg.names_eq]

theorem gridAdd_facts (g : List ((ℤ × ℤ × ℤ) × List String)) (id_ : String)
    (key : ℤ × ℤ × ℤ) (hgk : (g.map Prod.fst).Nodup)
    (hgb : ∀ b ∈ g, b.2.Nodup) (horph : ∀ b ∈ g, id_ ∉ b.2)
    (g' : List ((ℤ × ℤ × ℤ) × List String))
    (hgdef : g' = match lookupKey g key with
      | none => g ++ [(key, [id_])]
      | some bucket => insertKey g key (bucket ++ [id_])) :
    (g'.map Prod.fst).Nodup ∧
    (∀ b ∈ g', b.2.Nodup) ∧
    (∀ b ∈ g', (id_ ∈ b.2 ↔ b.1 = key)) ∧
    (∃ b ∈ g', b.1 = key) ∧
    (∀ id2, id2 ≠ id_ → ∀ key2,
      (∀ b ∈ g, (id2 ∈ b.2 ↔ b.1 = key2)) → (∃ b ∈ g, b.1 = key2) →
      (∀ b ∈ g', (id2 ∈ b.2 ↔ b.1 = key2)) ∧ (∃ b ∈ g', b.1 = key2)) ∧
    (∀ id2, id2 ≠ id_ → (∀ b ∈ g, id2 ∉ b.2) → ∀ b ∈ g', id2 ∉ b.2) := by
  rcases hk : lookupKey g key with _ | bucket
  · rw [hk] at hgdef
    subst hgdef
    have hknot : key ∉ g.map Prod.fst := lookupKey_eq_none.1 hk
    refine ⟨?_, ?_, ?_, ?_, ?_, ?_⟩
    · simp only [List.map_append, List.map_cons, List.map_nil]
      rw [List.nodup_append]
      refine ⟨hgk, List.nodup_singleton _, ?_⟩
      intro x hx hx2
      rw [List.mem_singleton.1 hx2] at hx
      exact hknot hx
    · intro b hb
      rcases List.mem_append.1 hb with hbg | hbn
      · exact hgb b hbg
      · rw [List.mem_singleton.1 hbn]
        exact List.nodup_singleton _
    · intro b hb
      rcases List.mem_append.1 hb with hbg | hbn
      · constructor
        · intro hin
          exact absurd hin (horph b hbg)
        · intro hkey
          exact absurd (List.mem_map.2 ⟨b, hbg, hkey⟩) hknot
      · rw [List.mem_singleton.1 hbn]
        simp
    · exact ⟨(key, [id_]), List.mem_append_right _ (List.mem_singleton.2 rfl),
        rfl⟩
    · intro id2 hne key2 hiff hex
      obtain ⟨b0, hb0, hb0k⟩ := hex
      have hkey2ne : key2 ≠ key := by
        intro he
        rw [← he] at hknot
        exact hknot (List.mem_map.2 ⟨b0, hb0, hb0k⟩)
      constructor
      · intro b hb
        rcases List.mem_append.1 hb with hbg | hbn
        · exact hiff b hbg
        · rw [List.mem_singleton.1 hbn]
          constructor
          · intro hin
            exact absurd (List.mem_singleton.1 hin) hne
          · intro hkey
            exact absurd hkey.symm hkey2ne
      · exact ⟨b0, List.mem_append_left _ hb0, hb0k⟩
    · intro id2 hne hnot b hb
      rcases List.mem_append.1 hb with hbg | hbn
      · exact hnot b hbg
      · rw [List.mem_singleton.1 hbn]
        intro hin
        exact hne (List.mem_singleton.1 hin)
  · rw [hk] at hgdef
    subst hgdef
    have hbmem := mem_of_lookupKey_some hk
    have hkmem : key ∈ g.map Prod.fst := List.mem_map.2 ⟨_, hbmem, rfl⟩
    have hmemg := mem_insertKey_nodup hgk (bucket ++ [id_]) hkmem
    refine ⟨?_, ?_, ?_, ?_, ?_, ?_⟩
    · rw [insertKey_map_fst_of_mem _ hkmem]
      exact hgk
    · intro b hb
      rcases (hmemg b).1 hb with he | ⟨hbg, _⟩
      · rw [he]
        rw [List.nodup_append]
        refine ⟨hgb _ hbmem, List.nodup_singleton _, ?_⟩
        intro x hx hx2
        rw [List.mem_singleton.1 hx2] at hx
        exact horph _ hbmem hx
      · exact hgb b hbg
    · intro b hb
      rcases (hmemg b).1 hb with he | ⟨hbg, hbne⟩
      · rw [he]
        simp
      · constructor
        · intro hin
          exact absurd hin (horph b hbg)
        · intro hkey
          exact absurd hkey hbne
    · exact ⟨(key, bucket ++ [id_]), (hmemg _).2 (Or.inl rfl), rfl⟩
    · intro id2 hne key2 hiff hex
      constructor
      · intro b hb
        rcases (hmemg b).1 hb with he | ⟨hbg, hbne⟩
        · rw [he]
          show id2 ∈ bucket ++ [id_] ↔ key = key2
          constructor
          · intro hin
            rcases List.mem_append.1 hin with hinb | hinid
            · exact (hiff _ hbmem).1 hinb
            · exact absurd (List.mem_singleton.1 hinid) hne
          · intro hkey
            exact List.mem_append_left _ ((hiff _ hbmem).2 hkey)
        · exact hiff b hbg
      · obtain ⟨b0, hb0, hb0k⟩ := hex
        by_cases hsame : b0.1 = key
        · refine ⟨(key, bucket ++ [id_]), (hmemg _).2 (Or.inl rfl), ?_⟩
          show key = key2
          rw [← hsame, hb0k]
        · exact ⟨b0, (hmemg b0).2 (Or.inr ⟨hb0, hsame⟩), hb0k⟩
    · intro id2 hne hnot b hb
      rcases (hmemg b).1 hb with he | ⟨hbg, _⟩
      · rw [he]
        show id2 ∉ bucket ++ [id_]
        intro hin
        rcases List.mem_append.1 hin with hinb | hinid
        · exact hnot _ hbmem hinb
        · exact hne (List.mem_singleton.1 hinid)
      · exact hnot b hbg

theorem goodScene_update_core (s : Scene3D) (id_ : String) (r : ℕ)
    (obj3 : SceneObject) (hg : GoodScene s)
    (hlook : lookupKey s.objects id_ = some r) :
    GoodScene (Scene3D.update_spatial_index
      { s.remove_from_spatial_index id_ (s.heapObj r) with
        heap := insertKey (s.remove_from_spatial_index id_ (s.heapObj r)).heap
          r obj3 } id_ obj3) := by
  have hmem : (id_, r) ∈ s.objects := mem_of_lookupKey_some hlook
  obtain ⟨hgk, hgb, hgid, hgp, hgorph⟩ :=
    grid_facts_after_remove s id_ r hg hlook
      (s.remove_from_spatial_index id_ (s.heapObj r)).spatial_grid rfl
  set S2 : Scene3D :=
    { s.remove_from_spatial_index id_ (s.heapObj r) with
      heap := insertKey (s.remove_from_spatial_index id_ (s.heapObj r)).heap
        r obj3 } with hS2
  set T := S2.update_spatial_index id_ obj3 with hT
  have hS2heap : S2.heap = insertKey s.heap r obj3 := by
    rw [hS2]
    show insertKey (s.remove_from_spatial_index id_ (s.heapObj r)).heap r obj3 =
      insertKey s.heap r obj3
    rw [remove_from_spatial_index_heap]
  have hS2objects : S2.objects = s.objects := by
    rw [hS2]
    show (s.remove_from_spatial_index id_ (s.heapObj r)).objects = s.objects
    rw [remove_from_spatial_index_objects]
  have hS2grid : S2.spatial_grid =
      (s.remove_from_spatial_index id_ (s.heapObj r)).spatial_grid := rfl
  have hS2gsz : S2.grid_size = s.grid_size := by
    rw [hS2]
    show (s.remove_from_spatial_index id_ (s.heapObj r)).grid_size = s.grid_size
    rw [remove_from_spatial_index_grid_size]
  have hS2root : S2.root_node = s.root_node := by
    rw [hS2]
    show (s.remove_from_spatial_index id_ (s.heapObj r)).root_node = s.root_node
    rw [remove_from_spatial_index_root]
  have hS2names : S2.node_names = s.node_names := by
    rw [hS2]
    show (s.remove_from_spatial_index id_ (s.heapObj r)).node_names =
      s.node_names
    rw [remove_from_spatial_index_node_names]
  have hS2nr : S2.next_ref = s.next_ref := by
    rw [hS2]
    show (s.remove_from_spatial_index id_ (s.heapObj r)).next_ref = s.next_ref
    rw [remove_from_spatial_index_next_ref]
  have hTobj : T.objects = s.objects := by
    rw [hT, update_spatial_index_objects, hS2objects]
  have hTheap : T.heap = insertKey s.heap r obj3 := by
    rw [hT, update_spatial_index_heap, hS2heap]
  have hTnames : T.node_names = s.node_names := by
    rw [hT, update_spatial_index_node_names, hS2names]
  have hTroot : T.root_node = s.root_node := by
    rw [hT, update_spatial_index_root, hS2root]
  have hTnr : T.next_ref = s.next_ref := by
    rw [hT, update_spatial_index_next_ref, hS2nr]
  have hTgsz : T.grid_size = s.grid_size := by
    rw [hT, update_spatial_index_grid_size, hS2gsz]
  have hHnew : T.heapObj r = obj3 := by
    rw [Scene3D.heapObj, hTheap, lookupKey_insertKey_self]
    rfl
  have hpne_ref : ∀ p ∈ s.objects, p.1 ≠ id_ → p.2 ≠ r := by
    intro p hp hpne he
    have := List.inj_on_of_nodup_map hg.refs_nodup hp hmem he
    exact hpne (by rw [this])
  have hHold : ∀ p ∈ s.objects, p.1 ≠ id_ → T.heapObj p.2 = s.heapObj p.2 := by
    intro p hp hpne
    rw [Scene3D.heapObj, hTheap,
      lookupKey_insertKey_ne _ _ (hpne_ref p hp hpne), Scene3D.heapObj]
  have horphS2 : ∀ b ∈ S2.spatial_grid, id_ ∉ b.2 := by
    rw [hS2grid]
    exact hgid
  have hTgrid : T.spatial_grid =
      match lookupKey S2.spatial_grid (gridKeyOf s.grid_size obj3.position) with
      | none => S2.spatial_grid ++ [(gridKeyOf s.grid_size obj3.position, [id_])]
      | some bucket => insertKey S2.spatial_grid
          (gridKeyOf s.grid_size obj3.position) (bucket ++ [id_]) := by
    rw [hT, update_spatial_index_grid_eq S2 id_ obj3 horphS2, hS2gsz]
  obtain ⟨hak, hab, haid, hahit, hapres, haorph⟩ :=
    gridAdd_facts S2.spatial_grid id_ (gridKeyOf s.grid_size obj3.position)
      (hS2grid ▸ hgk) (hS2grid ▸ hgb) horphS2 T.spatial_grid hTgrid
  have hmemchar : ∀ p, p ∈ s.objects → p.1 = id_ → p = (id_, r) := by
    intro p hp hpe
    exact List.inj_on_of_nodup_map hg.keys_nodup hp hmem hpe
  refine ⟨?_, ?_, ?_, ?_, ?_, ?_, ?_, ?_, ?_, ?_, ?_⟩
  · rw [hTobj]
    exact hg.keys_nodup
  · rw [hTobj]
    exact hg.refs_nodup
  · intro q hq
    rw [hTheap] at hq
    rw [hTnr]
    rcases mem_insertKey hq with hmem2 | he
    · exact hg.heap_keys_lt q hmem2
    · rw [he]
      exact hg.refs_lt (id_, r) hmem
  · intro p hp
    rw [hTobj] at hp
    rw [hTnr]
    exact hg.refs_lt p hp
  · exact hak
  · exact hab
  · intro p hp b hb
    rw [hTobj] at hp
    by_cases hpe : p.1 = id_
    · have hp2 : p.2 = r := by rw [hmemchar p hp hpe]
      rw [hTgsz, hpe, hp2, hHnew]
      exact haid b hb
    · rw [hTgsz, hHold p hp hpe]
      have hold := hgp p hp hpe
      exact ((hapres p.1 hpe _ (fun b2 hb2 => (hS2grid ▸ hold.1) b2 hb2)
        (hS2grid ▸ hold.2)).1) b hb
  · intro p hp
    rw [hTobj] at hp
    by_cases hpe : p.1 = id_
    · have hp2 : p.2 = r := by rw [hmemchar p hp hpe]
      rw [hTgsz, hp2, hHnew]
      exact hahit
    · rw [hTgsz, hHold p hp hpe]
      have hold := hgp p hp hpe
      exact (hapres p.1 hpe _ (fun b2 hb2 => (hS2grid ▸ hold.1) b2 hb2)
        (hS2grid ▸ hold.2)).2
  · intro id2 hid2 b hb
    rw [hTobj] at hid2
    have hne : id2 ≠ id_ := by
      intro he
      rw [he, hlook] at hid2
      simp at hid2
    exact haorph id2 hne (hS2grid ▸ hgorph id2 hid2) b hb
  · rw [hTroot, hTobj, hg.root_eq]
  · rw [hTnames, hg.names_eq]

theorem goodScene_update (s : Scene3D) (id_ : String)
    (pos rot scl : Option Vector3D) (hg : GoodScene s) :
    GoodScene (s.update_object_transform id_ pos rot scl).2 := by
  rcases hlook : lookupKey s.objects id_ with _ | r
  · simp only [Scene3D.update_object_transform, hlook]
    exact hg
  · simp only [Scene3D.update_object_transform, hlook]
    exact goodScene_update_core s id_ r _ hg hlook

theorem goodScene_init : GoodScene Scene3D.init := by
  refine ⟨?_, ?_, ?_, ?_, ?_, ?_, ?_, ?_, ?_, rfl, rfl⟩ <;>
    simp [Scene3D.init]

theorem nodeOccur_mk (id_ n : String) (p r sc : Vector3D) (v : Bool)
    (o : List (String × ℕ)) :
    nodeOccur id_ (SceneNode.mk n p r sc v o []) =
      (o.map Prod.fst).count id_ := by
  simp [nodeOccur, nodeOccurList]

theorem goodScene_spatialConsistent (s : Scene3D) (hg : GoodScene s) :
    spatialConsistent s := by
  constructor
  · intro p hp
    refine ⟨?_, ?_, ?_⟩
    · exact gridOccur_eq_one hg.grid_keys_nodup hg.buckets_nodup
        (fun b hb => hg.grid_mem p hp b hb) (hg.grid_hit p hp)
    · intro b hb hin
      exact (hg.grid_mem p hp b hb).1 hin
    · rw [hg.root_eq, nodeOccur_mk]
      exact List.count_eq_one_of_mem hg.keys_nodup
        (List.mem_map.2 ⟨p, hp, rfl⟩)
  · intro id_ hnone
    constructor
    · exact gridOccur_eq_zero (hg.grid_orphan id_ hnone)
    · rw [hg.root_eq, nodeOccur_mk]
      exact List.count_eq_zero.2 (lookupKey_eq_none.mp hnone)

/-- C1 (amended): restricted to call sequences in which every add_object
uses an id not currently in the flat index, the spatial-grid invariant
holds: starting from a fresh scene, after any such sequence of
add_object / update_object_transform / remove_object calls, every id in
the flat objects map occurs in exactly one grid bucket, every bucket
holding it is the floor-cell of its current position, the id lives in
exactly one node object map, and no unindexed id survives in any bucket
or node map.  (Without the freshness restriction the claim fails: a
replacing add leaves the stale grid entry of the old position behind.) -/
theorem spatial_index_consistency (ops : List SceneOp)
    (h : freshOps Scene3D.init ops) :
    spatialConsistent (applyOps Scene3D.init ops) := by
  have main : ∀ (ops : List SceneOp) (s : Scene3D), GoodScene s →
      freshOps s ops → GoodScene (applyOps s ops) := by
    intro ops
    induction ops with
    | nil => exact fun s hg _ => hg
    | cons op rest ih =>
        intro s hg hf
        have h1 : GoodScene (applyOp s op) := by
          cases op with
          | add id_ obj nn => exact goodScene_add s id_ obj nn hg hf.1
          | update id_ p r sc => exact goodScene_update s id_ p r sc hg
          | remove id_ => exact goodScene_remove s id_ hg
        exact ih (applyOp s op) h1 hf.2
  exact goodScene_spatialConsistent _ (main ops Scene3D.init goodScene_init h)

theorem spatial_index_consistency_witness :
    freshOps Scene3D.init [SceneOp.add "a" (objAt ⟨0, 0, 0⟩) "root"] ∧
    spatialConsistent (applyOps Scene3D.init
      [SceneOp.add "a" (objAt ⟨0, 0, 0⟩) "root"]) :=
  ⟨⟨rfl, trivial⟩, spatial_index_consistency _ ⟨rfl, trivial⟩⟩

/-- C1 counterexample: adding the same id "a" twice, first at the origin
and then at (15, 0, 0), leaves the stale grid entry in cell (0, 0, 0)
while the re-add registers the id again in cell (1, 0, 0); the id then
occurs in two grid buckets, violating the invariant. -/
theorem spatial_consistency_cex : ¬ spatialConsistent sceneDupAdd := by
  intro h
  have hf15 : (⌊(15 : ℚ) / 10⌋ : ℤ) = 1 := by norm_num
  have hs1 : (Scene3D.init.add_object "a" (objAt ⟨0, 0, 0⟩) "root").2 =
      { root_node :=
          SceneNode.mk "root" ⟨0, 0, 0⟩ ⟨0, 0, 0⟩ ⟨1, 1, 1⟩ true
            [("a", 0)] []
        node_names := ["root"]
        objects := [("a", 0)]
        heap := [(0, objAt ⟨0, 0, 0⟩)]
        next_ref := 1
        spatial_grid := [((0, 0, 0), ["a"])]
        grid_size := 10 } := by
    simp [Scene3D.add_object, Scene3D.init, Scene3D.getNode, findNode,
      SceneNode.fresh, mapNode, mapNodeList, SceneNode.withObjects,
      insertKey, lookupKey, Scene3D.update_spatial_index, gridKeyOf, objAt,
      Prod.ext_iff]
  have hs2 : sceneDupAdd.objects = [("a", 1)] ∧
      sceneDupAdd.spatial_grid = [((0, 0, 0), ["a"]), ((1, 0, 0), ["a"])] := by
    have : sceneDupAdd =
        ((Scene3D.init.add_object "a" (objAt ⟨0, 0, 0⟩) "root").2.add_object
          "a" (objAt ⟨15, 0, 0⟩) "root").2 := rfl
    rw [this, hs1]
    constructor
    · simp [Scene3D.add_object, Scene3D.getNode, findNode, mapNode,
        mapNodeList, SceneNode.withObjects, insertKey, lookupKey,
        Scene3D.update_spatial_index, gridKeyOf, objAt, hf15, Prod.ext_iff]
    · simp [Scene3D.add_object, Scene3D.getNode, findNode, mapNode,
        mapNodeList, SceneNode.withObjects, insertKey, lookupKey,
        Scene3D.update_spatial_index, gridKeyOf, objAt, hf15, Prod.ext_iff]
  have hmem : ("a", 1) ∈ sceneDupAdd.objects := by
    rw [hs2.1]
    exact List.mem_singleton.2 rfl
  have hone := (h.1 ("a", 1) hmem).1
  rw [hs2.2] at hone
  simp [gridOccur] at hone

theorem eraseFirstRef_eq_filter (l : List (String × ℕ)) (r : ℕ)
    (hl : (l.map Prod.snd).Nodup) :
    eraseFirstRef l r = l.filter (fun p => decide (p.2 ≠ r)) := by
  induction l with
  | nil => rfl
  | cons p ps ih =>
      rw [List.map_cons, List.nodup_cons] at hl
      by_cases h : p.2 = r
      · have hps : ps.filter (fun q => decide (q.2 ≠ r)) = ps :=
          List.filter_eq_self.2 (fun q hq => by
            simp only [decide_eq_true_eq]
            intro he
            have hin : q.2 ∈ ps.map Prod.snd := List.mem_map.2 ⟨q, hq, rfl⟩
            rw [he, ← h] at hin
            exact hl.1 hin)
        simp only [decide_not] at hps
        rw [eraseFirstRef, if_pos h, List.filter_cons]
        simp [h, hps]
      · rw [eraseFirstRef, if_neg h, List.filter_cons]
        simp only [decide_eq_true_eq]
        simp [h, ih hl.2]

theorem foldl_eraseFirstRef_filter (refs : List ℕ) :
    ∀ l : List (String × ℕ), (l.map Prod.snd).Nodup →
    refs.foldl eraseFirstRef l = l.filter (fun p => decide (p.2 ∉ refs)) := by
  induction refs with
  | nil =>
      intro l _
      simp
  | cons r rs ih =>
      intro l hl
      have hl2 : ((l.filter (fun p => decide (p.2 ≠ r))).map Prod.snd).Nodup :=
        hl.sublist ((l.filter_sublist).map Prod.snd)
      rw [List.foldl_cons, eraseFirstRef_eq_filter l r hl, ih _ hl2,
        List.filter_filter]
      apply List.filter_congr
      intro p _
      simp only [List.mem_cons, not_or, decide_eq_true_eq, Bool.and_eq_true,
        decide_not]
      by_cases h1 : p.2 = r <;> by_cases h2 : p.2 ∈ rs <;> simp [h1, h2]

theorem erase_eq_filter_of_nodup (a : String) (l : List String)
    (hl : l.Nodup) :
    l.erase a = l.filter (fun n => decide (n ≠ a)) := by
  induction l with
  | nil => rfl
  | cons b bs ih =>
      rw [List.nodup_cons] at hl
      by_cases h : b = a
      · have hbs : bs.filter (fun n => decide (n ≠ a)) = bs :=
          List.filter_eq_self.2 (fun q hq => by
            simp only [decide_eq_true_eq]
            intro he
            rw [he, ← h] at hq
            exact hl.1 hq)
        simp only [decide_not] at hbs
        rw [List.erase_cons, if_pos (by simp [h]), List.filter_cons]
        simp [h, hbs]
      · rw [List.erase_cons, if_neg (by simpa using h), List.filter_cons]
        simp [h, ih hl.2]

theorem foldl_erase_filter (names : List String) :
    ∀ l : List String, l.Nodup →
    names.foldl List.erase l = l.filter (fun n => decide (n ∉ names)) := by
  induction names with
  | nil =>
      intro l _
      simp
  | cons a rest ih =>
      intro l hl
      have hl2 : (l.filter (fun n => decide (n ≠ a))).Nodup :=
        hl.sublist l.filter_sublist
      rw [List.foldl_cons, erase_eq_filter_of_nodup a l hl, ih _ hl2,
        List.filter_filter]
      apply List.filter_congr
      intro n _
      simp only [List.mem_cons, not_or, decide_eq_true_eq, Bool.and_eq_true,
        decide_not]
      by_cases h1 : n = a <;> by_cases h2 : n ∈ rest <;> simp [h1, h2]

/-- C4 (amended): remove_node("root") refuses and changes nothing, as does
remove_node on a missing name; on an existing non-root node it reports
success, deletes the whole subtree from the node table, and drops every
object owned by the removed subtree from the flat object index — but it
never touches the spatial grid (or the stored objects), so the grid
entries of the removed objects survive as stale entries. -/
theorem remove_node_spec :
    (∀ s : Scene3D, s.remove_node "root" = (false, s)) ∧
    (∀ (s : Scene3D) (name : String), name ≠ "root" →
        s.getNode name = none → s.remove_node name = (false, s)) ∧
    (∀ (s : Scene3D) (name : String) (node : SceneNode),
        name ≠ "root" → s.getNode name = some node →
        (s.objects.map Prod.snd).Nodup → s.node_names.Nodup →
        (s.remove_node name).1 = true ∧
        (s.remove_node name).2.objects =
          s.objects.filter (fun p => decide (p.2 ∉ getAllObjects node)) ∧
        (s.remove_node name).2.node_names =
          s.node_names.filter (fun n => decide (n ∉ subtreeNamesPost node)) ∧
        (s.remove_node name).2.spatial_grid = s.spatial_grid ∧
        (s.remove_node name).2.heap = s.heap) := by
  refine ⟨?_, ?_, ?_⟩
  · intro s
    rw [Scene3D.remove_node, if_pos rfl]
  · intro s name hname hget
    rw [Scene3D.remove_node, if_neg hname, hget]
  · intro s name node hname hget hrefs hnames
    simp only [Scene3D.remove_node, if_neg hname, hget]
    exact ⟨trivial, foldl_eraseFirstRef_filter _ _ hrefs,
      foldl_erase_filter _ _ hnames, trivial, trivial⟩

/-- C4 counterexample: removing the node "panels", which owns the object
"a", succeeds and drops "a" from the flat object index — but the spatial
grid still lists "a" in cell (0, 0, 0): the removed object is never
deregistered from the spatial grid. -/
theorem remove_node_grid_stale_cex :
    (scenePanels.remove_node "panels").1 = true ∧
    lookupKey scenePanelsRemoved.objects "a" = none ∧
    gridOccur scenePanelsRemoved.spatial_grid "a" = 1 := by
  have hsp : scenePanels =
      { root_node := SceneNode.mk "root" ⟨0, 0, 0⟩ ⟨0, 0, 0⟩ ⟨1, 1, 1⟩ true []
          [SceneNode.mk "panels" ⟨0, 0, 0⟩ ⟨0, 0, 0⟩ ⟨1, 1, 1⟩ true
            [("a", 0)] []]
        node_names := ["root", "panels"]
        objects := [("a", 0)]
        heap := [(0, objAt ⟨0, 0, 0⟩)]
        next_ref := 1
        spatial_grid := [((0, 0, 0), ["a"])]
        grid_size := 10 } := by
    simp [scenePanels, Scene3D.create_node, Scene3D.init, Scene3D.getNode,
      findNode, findNodeList, SceneNode.fresh, SceneNode.withChild, mapNode,
      mapNodeList, SceneNode.withObjects, insertKey, lookupKey,
      Scene3D.add_object, Scene3D.update_spatial_index, gridKeyOf, objAt,
      Prod.ext_iff]
  refine ⟨?_, ?_, ?_⟩
  · rw [hsp]
    simp [Scene3D.remove_node, Scene3D.getNode, findNode, findNodeList]
  · rw [scenePanelsRemoved, hsp]
    simp [Scene3D.remove_node, Scene3D.getNode, findNode, findNodeList,
      getAllObjects, nodeEntries, nodeEntriesList, eraseFirstRef, lookupKey]
  · rw [scenePanelsRemoved, hsp]
    simp [Scene3D.remove_node, Scene3D.getNode, findNode, findNodeList,
      gridOccur]
